import Mathlib

/-!
Shallow embedding of the two-point trajectory interpolation library
(constant-acceleration solver, constant-jerk solver, angle adaptor),
translated from src/include/two_point_interpolation/constant_acc.hpp and
src/include/two_point_interpolation/constant_jerk.hpp.  IEEE doubles are
modelled as real numbers; C++ exceptions are modelled by an error type
returned through Except.
-/

namespace TwoPointInterp

open Real

open scoped Classical

noncomputable section

/-- Tolerance threshold for deceleration distance comparison (2%), constant_acc.hpp line 24. -/
def DECEL_DISTANCE_TOLERANCE : ℝ := 0.02

/-- Velocity integration helper, constant_acc.hpp lines 26-28. -/
def vInteg (v0 a dt : ℝ) : ℝ := v0 + a * dt

/-- Position integration helper, constant_acc.hpp lines 30-32. -/
def pInteg (p0 v0 a dt : ℝ) : ℝ := p0 + v0 * dt + 0.5 * a * dt * dt

/-- C truncation toward zero, the rounding used by C `fmod`. -/
def ctrunc (x : ℝ) : ℤ := if 0 ≤ x then ⌊x⌋ else ⌈x⌉

/-- C `fmod`: remainder with the sign of the dividend. -/
def cfmod (a b : ℝ) : ℝ := a - b * (ctrunc (a / b) : ℝ)

/-- Angle normalisation, constant_acc.hpp lines 34-41. -/
def normalizeAxis (input : ℝ) : ℝ :=
  let output := cfmod (input + π) (2 * π)
  (if output < 0 then output + 2 * π else output) - π

/-- Error taxonomy surfaced by the planner (the C++ code throws exceptions;
the spec names the classes InvalidConstraint, InvalidGeometry, GoalTooClose,
InsufficientBrakingDistance, InfeasibleConstraints, NumericInvariantViolation). -/
inductive PlanError where
  | invalidConstraint : PlanError
  | invalidGeometry : PlanError
  | goalTooClose : PlanError
  | insufficientBrakingDistance : ℝ → PlanError
  | infeasibleConstraints : PlanError
  | numericInvariantViolation : PlanError

/-- Which failure site delegated to the deceleration-feasibility helper
(`context` string in the C++ code). -/
inductive DecelContext where
  | discriminant : DecelContext
  | noPositiveSolution : DecelContext
deriving DecidableEq

/-- Deceleration-feasibility diagnostic, constant_acc.hpp lines 66-125
(`TwoPointInterpolation::_raiseDecelerationError`).  The `context` only
changes the human-readable message, not the error class; the
insufficient-braking error carries the reported shortage. -/
def raiseDecelerationError (v0 ve dp dec sgn : ℝ) (ctx : DecelContext) : PlanError :=
  let decel_distance := (v0 * v0 - ve * ve) / (2 * |dec|)
  if sgn * v0 > 0 ∧ abs (decel_distance - |dp|) < |dp| * DECEL_DISTANCE_TOLERANCE then
    PlanError.goalTooClose
  else if sgn * v0 > 0 ∧ decel_distance > |dp| then
    PlanError.insufficientBrakingDistance (decel_distance - |dp|)
  else
    match ctx with
    | DecelContext.discriminant => PlanError.infeasibleConstraints
    | DecelContext.noPositiveSolution => PlanError.infeasibleConstraints

/-- Quadratic coefficient `a_coeff`, constant_acc.hpp line 232. -/
def quadA (acc dec : ℝ) : ℝ := 0.5 * acc * (1 + acc / dec)

/-- Quadratic coefficient `b_coeff`, constant_acc.hpp line 233. -/
def quadB (v0 acc dec : ℝ) : ℝ := v0 * (1 + acc / dec)

/-- Quadratic coefficient `c_coeff`, constant_acc.hpp line 234. -/
def quadC (v0 ve dp dec : ℝ) : ℝ := -dp + (v0 * v0 - ve * ve) / (2 * dec)

/-- Discriminant of the planning quadratic, constant_acc.hpp line 237. -/
def quadDisc (v0 ve dp acc dec : ℝ) : ℝ :=
  quadB v0 acc dec * quadB v0 acc dec - 4 * quadA acc dec * quadC v0 ve dp dec

/-- Root selection for the planning quadratic, constant_acc.hpp lines 242-258:
with `disc > 0`, choose the smaller root when both are positive, otherwise the
positive one, otherwise report failure (`none`). -/
def chooseRoot (a_coeff b_coeff disc : ℝ) : Option ℝ :=
  let sqrt_disc := Real.sqrt disc
  let dt01_plus := (-b_coeff + sqrt_disc) / (2 * a_coeff)
  let dt01_minus := (-b_coeff - sqrt_disc) / (2 * a_coeff)
  if dt01_plus > 0 ∧ dt01_minus > 0 then some (min dt01_plus dt01_minus)
  else if dt01_plus > 0 then some dt01_plus
  else if dt01_minus > 0 then some dt01_minus
  else none

/-- The quadratic-solving step of `calcTrajectory`, constant_acc.hpp lines
236-258: fail through the deceleration diagnostic when the discriminant is
non-positive or no strictly positive root exists. -/
def solveT1 (v0 ve dp acc dec sgn : ℝ) : Except PlanError ℝ :=
  if quadDisc v0 ve dp acc dec > 0 then
    match chooseRoot (quadA acc dec) (quadB v0 acc dec) (quadDisc v0 ve dp acc dec) with
    | some dt01 => Except.ok dt01
    | none => Except.error (raiseDecelerationError v0 ve dp dec sgn DecelContext.noPositiveSolution)
  else
    Except.error (raiseDecelerationError v0 ve dp dec sgn DecelContext.discriminant)

/-- The phase table stored by `TwoPointInterpolation`: parallel vectors
`_dt`, `_a`, `_v`, `_p` and the `_caseNum` tag. -/
structure AccPlan where
  dt : List ℝ
  a : List ℝ
  v : List ℝ
  p : List ℝ
  caseNum : ℤ

/-- Direction sign `dp / fabs(dp)`, constant_acc.hpp line 226. -/
def accSgn (dp : ℝ) : ℝ := dp / |dp|

/-- The phase table stored in the triangular branch (case 0),
constant_acc.hpp lines 260-270. -/
def case0Plan (p0 v0 acc dec dt01 ve : ℝ) : AccPlan :=
  ⟨[dt01, |(vInteg v0 acc dt01 - ve) / dec|], [acc, -dec], [v0, vInteg v0 acc dt01],
    [p0, pInteg p0 v0 acc dt01], 0⟩

/-- The cruise duration `dt12` computed in the trapezoidal branch (case 1),
constant_acc.hpp lines 272-290. -/
def case1dt12 (p0 v0 pe ve acc dec vmax : ℝ) : ℝ :=
  let w1 := vmax * (pe - p0) / |pe - p0|
  let dt01r := (w1 - v0) / acc
  let p1 := pInteg p0 v0 acc dt01r
  let dt2e := |(w1 - ve) / dec|
  let dp2e := pInteg 0 w1 (-dec) dt2e
  (pe - p1 - dp2e) / w1

/-- The phase table stored in the trapezoidal branch (case 1),
constant_acc.hpp lines 272-312. -/
def case1Plan (p0 v0 pe ve acc dec vmax : ℝ) : AccPlan :=
  let w1 := vmax * (pe - p0) / |pe - p0|
  let dt01r := (w1 - v0) / acc
  let p1 := pInteg p0 v0 acc dt01r
  let dt2e := |(w1 - ve) / dec|
  let dp2e := pInteg 0 w1 (-dec) dt2e
  let dt12 := (pe - p1 - dp2e) / w1
  ⟨[dt01r, dt12, dt2e], [acc, 0, -dec], [v0, w1, w1], [p0, p1, pe - dp2e], 1⟩

/-- `TwoPointInterpolation::calcTrajectory`, constant_acc.hpp lines 185-354,
assuming the three setters were called (the not-configured throws are the
guards at lines 186-194).  Arguments are the stored member state. -/
def calcTrajectory (t0 p0 v0 pe ve amax_accel amax_decel vmax : ℝ) :
    Except PlanError AccPlan :=
  let _ := t0
  let dp := pe - p0
  let dv := ve - v0
  if dp = 0 then
    if dv = 0 then
      Except.ok ⟨[], [], [v0], [p0], -1⟩
    else
      Except.error PlanError.invalidGeometry
  else
    let sgn := accSgn dp
    let acc := amax_accel * sgn
    let dec := amax_decel * sgn
    match solveT1 v0 ve dp acc dec sgn with
    | Except.error e => Except.error e
    | Except.ok dt01 =>
      let v1 := vInteg v0 acc dt01
      if |v1| < vmax then
        Except.ok (case0Plan p0 v0 acc dec dt01 ve)
      else
        if case1dt12 p0 v0 pe ve acc dec vmax < 0 then
          Except.error PlanError.numericInvariantViolation
        else
          Except.ok (case1Plan p0 v0 pe ve acc dec vmax)

/-- `TwoPointInterpolation::sum`, constant_acc.hpp lines 420-426: sum of the
first `count` entries, capped at the vector size. -/
def sumTake (values : List ℝ) (count : ℕ) : ℝ := (values.take count).sum

/-- The phase-search loop of `getPoint`, constant_acc.hpp lines 393-402:
the first index `i` (scanning from `i0`) with `tau ≤ sum(dt, i+1)`,
or `none` when the loop never breaks. -/
def findPhaseFrom (dt : List ℝ) (tau : ℝ) (i0 : ℕ) : Option ℕ :=
  if h : i0 < dt.length then
    if tau ≤ sumTake dt (i0 + 1) then some i0
    else findPhaseFrom dt tau (i0 + 1)
  else none
termination_by dt.length - i0

/-- Phase search starting at index 0. -/
def findPhaseIdx (dt : List ℝ) (tau : ℝ) : Option ℕ := findPhaseFrom dt tau 0

/-- `TwoPointInterpolation::getPoint`, constant_acc.hpp lines 364-411.
Returns `(pos, v, a)`.  Out-of-range vector reads (which the search never
produces for well-formed plans) are modelled by `getD` with default 0. -/
def getPoint (t0 p0 v0 pe ve : ℝ) (pl : AccPlan) (t : ℝ) : ℝ × ℝ × ℝ :=
  if pl.caseNum = -1 then (p0, v0, 0)
  else
    let tau := t - t0
    if tau < 0 then (p0, v0, 0)
    else if sumTake pl.dt (pl.dt.length + 1) ≤ tau then (pe, ve, 0)
    else
      match findPhaseIdx pl.dt tau with
      | none => (pInteg 0 0 0 tau, vInteg 0 0 tau, 0)
      | some i =>
        let t_in := tau - sumTake pl.dt i
        let a_in := pl.a.getD i 0
        let v_in := pl.v.getD i 0
        let p_in := pl.p.getD i 0
        (pInteg p_in v_in a_in t_in, vInteg v_in a_in t_in, a_in)

/-- `TwoPointInterpolation::setConstraints`, constant_acc.hpp lines 149-169.
Returns the stored `(_amax_accel, _vmax, _amax_decel)`; the C++ default
argument `dec_max = -1.0` stands for an omitted deceleration limit. -/
def setConstraints (amax vmax : ℝ) (dec_max : ℝ := -1) : Except PlanError (ℝ × ℝ × ℝ) :=
  if amax ≤ 0 then Except.error PlanError.invalidConstraint
  else if vmax ≤ 0 then Except.error PlanError.invalidConstraint
  else if dec_max < 0 then Except.ok (amax, vmax, amax)
  else if dec_max = 0 then Except.error PlanError.invalidConstraint
  else Except.ok (amax, vmax, dec_max)

/-- `TwoAngleInterpolation::init`, constant_acc.hpp lines 435-447: the
normalised initial position handed to `setInitial` and the target handed to
`setPoint`. -/
def angleInit (p0 pe : ℝ) : ℝ × ℝ :=
  let p0n := normalizeAxis p0
  let pen := normalizeAxis pe
  let dp := normalizeAxis (pen - p0n)
  (p0n, p0n + dp)

/-- The trajectory state stored by `TwoPointInterpolationJerk` after
`calcTrajectory`: the case tag, the phase durations that the chosen case
assigns (durations the C++ code leaves unassigned are `none`), and the
total time `_te`. -/
structure JerkPlan where
  caseNum : ℤ
  t1 : ℝ
  t2 : Option ℝ
  t3 : Option ℝ
  te : ℝ

/-- `TwoPointInterpolationJerk::calcTrajectory`, constant_jerk.hpp lines
137-201, for an instance configured through `init` (so `_initialStateSetted`
holds and `ps = _p0`). -/
def jerkCalcTrajectory (p0 v0 pe ve amax vmax jmax : ℝ) : Except PlanError JerkPlan :=
  let dp := pe - p0
  if dp = 0 then
    if ve ≠ v0 then Except.error PlanError.invalidGeometry
    else Except.ok ⟨-1, 0, none, none, 0⟩
  else
    let _ := amax
    let t1 := (|dp| / 2 / jmax) ^ ((1 : ℝ) / 3)
    if t1 * jmax < amax then
      if t1 * jmax * t1 < vmax then
        Except.ok ⟨0, t1, none, none, 4 * t1⟩
      else
        let t1a := Real.sqrt (vmax / jmax)
        let t2 := |dp| / vmax - 2 * Real.sqrt (vmax / jmax)
        Except.ok ⟨1, t1a, some t2, none, 4 * t1a + t2⟩
    else
      let t1b := amax / jmax
      let t2 := -1.5 * t1b + Real.sqrt (4 * |dp| / amax + 1 / 3 * t1b * t1b) / 2
      if (t1b + t2) * amax < vmax then
        Except.ok ⟨2, t1b, some t2, none, 4 * t1b + 2 * t2⟩
      else
        let t1c := amax / jmax
        let t2c := vmax / amax - t1c
        let t3 := |dp| / vmax - 2 * t1c - t2c
        Except.ok ⟨3, t1c, some t2c, some t3, 4 * t1c + 2 * t2c + t3⟩

/-- `TwoPointInterpolationJerk::getPoint`, constant_jerk.hpp lines 203-312,
for an instance configured through `init` (so `ps = _p0` and `v` falls back
to `_v0`/`_ve`).  Returns `(p, v, a, j)`. -/
def jerkGetPoint (t0 p0 v0 pe ve jmax : ℝ) (pl : JerkPlan) (t : ℝ) : ℝ × ℝ × ℝ × ℝ :=
  let ps := p0
  if pl.caseNum = -1 then (ps, v0, 0, 0)
  else
    let tau := t - t0
    let t1 := pl.t1
    if pl.caseNum = 0 then
      if tau < 0 then
        (ps, 0, 0, if pe < ps then -jmax else jmax)
      else if tau < 4 * t1 then
        let (p, v, a, j) :=
          if tau < t1 then
            (1 / 6 * jmax * tau * tau * tau, 0.5 * jmax * tau * tau, jmax * tau, jmax)
          else if tau < 3 * t1 then
            let tau1 := tau - t1
            (-(1 / 6) * jmax * tau1 * tau1 * tau1 + 0.5 * jmax * t1 * tau1 * tau1 +
                0.5 * jmax * t1 * t1 * tau1 + 1 / 6 * jmax * t1 * t1 * t1,
              -0.5 * jmax * tau1 * tau1 + jmax * t1 * tau1 + 0.5 * jmax * t1 * t1,
              -jmax * tau1 + jmax * t1, -jmax)
          else
            let tau3 := tau - 3 * t1
            (1 / 6 * jmax * tau3 * tau3 * tau3 - 0.5 * jmax * t1 * tau3 * tau3 +
                0.5 * jmax * t1 * t1 * tau3 + 11 / 6 * jmax * t1 * t1 * t1,
              0.5 * jmax * tau3 * tau3 - jmax * t1 * tau3 + 0.5 * jmax * t1 * t1,
              jmax * tau3 - jmax * t1, jmax)
        if pe < ps then (-p + ps, -v, -a, -j) else (p + ps, v, a, j)
      else
        (pe, 0, 0, if pe < ps then -jmax else jmax)
    else
      if tau < 0 then (ps, v0, 0, if pe < ps then -jmax else jmax)
      else (pe, ve, 0, 0)

end

lemma two_pi_pos : (0 : ℝ) < 2 * π := by positivity

lemma cfmod_adjust (y b : ℝ) (hb : 0 < b) :
    (if cfmod y b < 0 then cfmod y b + b else cfmod y b) = b * Int.fract (y / b) := by
  have hbne : b ≠ 0 := ne_of_gt hb
  set r : ℝ := y / b with hr
  have hy : y = b * r := by field_simp [hr]
  by_cases h0 : 0 ≤ r
  · have htr : ctrunc r = ⌊r⌋ := if_pos h0
    have hv : cfmod y b = b * Int.fract r := by
      rw [cfmod, ← hr, htr, Int.fract, hy]; ring
    have hnn : 0 ≤ b * Int.fract r := mul_nonneg hb.le (Int.fract_nonneg r)
    rw [hv, if_neg (not_lt.mpr hnn)]
  · have htr : ctrunc r = ⌈r⌉ := if_neg h0
    by_cases hfr : Int.fract r = 0
    · have hfloor : r = (⌊r⌋ : ℝ) := by
        unfold Int.fract at hfr
        linarith [hfr]
      have hceilInt : ⌈r⌉ = ⌊r⌋ := by
        conv_lhs => rw [hfloor]
        exact Int.ceil_intCast _
      have hv : cfmod y b = 0 := by
        rw [cfmod, ← hr, htr, hceilInt, hy, ← hfloor]; ring
      rw [hv, if_neg (lt_irrefl 0).elim, hfr, mul_zero]
    · have hceil : (⌈r⌉ : ℝ) = r + 1 - Int.fract r := by
        rcases Int.fract_eq_zero_or_add_one_sub_ceil r with h | h
        · exact absurd h hfr
        · rw [h]; ring
      have hv : cfmod y b = b * (Int.fract r - 1) := by
        rw [cfmod, ← hr, htr, hceil, hy]; ring
      have hneg : b * (Int.fract r - 1) < 0 :=
        mul_neg_of_pos_of_neg hb (by linarith [Int.fract_lt_one r])
      rw [hv, if_pos hneg]; ring

lemma normalizeAxis_eq (x : ℝ) :
    normalizeAxis x = 2 * π * Int.fract ((x + π) / (2 * π)) - π := by
  have h := cfmod_adjust (x + π) (2 * π) two_pi_pos
  simp only [normalizeAxis]
  rw [h]

lemma normalizeAxis_mem_Ico (x : ℝ) : normalizeAxis x ∈ Set.Ico (-π) π := by
  rw [normalizeAxis_eq]
  constructor
  · have := mul_nonneg two_pi_pos.le (Int.fract_nonneg ((x + π) / (2 * π)))
    linarith
  · have h1 : Int.fract ((x + π) / (2 * π)) < 1 := Int.fract_lt_one _
    nlinarith [two_pi_pos]

lemma normalizeAxis_eq_self {x : ℝ} (h1 : -π ≤ x) (h2 : x < π) : normalizeAxis x = x := by
  have hb : (0 : ℝ) < 2 * π := two_pi_pos
  have hfr : Int.fract ((x + π) / (2 * π)) = (x + π) / (2 * π) := by
    rw [Int.fract_eq_self]
    constructor
    · apply div_nonneg _ hb.le; linarith
    · rw [div_lt_one hb]; linarith
  rw [normalizeAxis_eq, hfr]
  field_simp

lemma normalizeAxis_idem (x : ℝ) : normalizeAxis (normalizeAxis x) = normalizeAxis x := by
  obtain ⟨h1, h2⟩ := normalizeAxis_mem_Ico x
  exact normalizeAxis_eq_self h1 h2

lemma normalizeAxis_three : normalizeAxis 3 = 3 := by
  have h3 : (3 : ℝ) < π := Real.pi_gt_three
  exact normalizeAxis_eq_self (by linarith) h3

lemma normalizeAxis_neg_three : normalizeAxis (-3) = -3 := by
  have h3 : (3 : ℝ) < π := Real.pi_gt_three
  exact normalizeAxis_eq_self (by linarith) (by linarith)

lemma normalizeAxis_neg_six : normalizeAxis (-6) = 2 * π - 6 := by
  have h3 : (3 : ℝ) < π := Real.pi_gt_three
  have h4 : π < 3.15 := Real.pi_lt_d2
  have hb : (0 : ℝ) < 2 * π := two_pi_pos
  have hfl : ⌊(-6 + π) / (2 * π)⌋ = -1 := by
    rw [Int.floor_eq_iff]
    constructor
    · push_cast
      rw [le_div_iff₀ hb]
      nlinarith
    · push_cast
      rw [div_lt_iff₀ hb]
      nlinarith
  have hfr : Int.fract ((-6 + π) / (2 * π)) = (-6 + π) / (2 * π) + 1 := by
    rw [Int.fract, hfl]; push_cast; ring
  rw [normalizeAxis_eq, hfr]
  field_simp
  ring

/-- Claim C10: for every input `x`, `normalizeAxis x` lies in the half-open
interval `[-π, π)`, and `normalizeAxis` is idempotent. -/
theorem claim_C10 :
    (∀ x : ℝ, normalizeAxis x ∈ Set.Ico (-π) π) ∧
      ∀ x : ℝ, normalizeAxis (normalizeAxis x) = normalizeAxis x :=
  ⟨normalizeAxis_mem_Ico, normalizeAxis_idem⟩

/-- Claim C7, counterexample: the claim says `normalizeAxis` maps into the
interval `(-π, π]`, but `normalizeAxis π = -π`, which is outside `(-π, π]`. -/
theorem claim_C7_counterexample :
    normalizeAxis π = -π ∧ normalizeAxis π ∉ Set.Ioc (-π) π := by
  have hπ : (0 : ℝ) < π := Real.pi_pos
  have h1 : (π + π) / (2 * π) = 1 := by field_simp; ring
  have hval : normalizeAxis π = -π := by
    rw [normalizeAxis_eq, h1]
    rw [show Int.fract (1 : ℝ) = 0 by rw [Int.fract_eq_iff]; exact ⟨le_refl 0, by norm_num, 1, by norm_num⟩]
    ring
  refine ⟨hval, ?_⟩
  rw [hval, Set.mem_Ioc]
  intro h
  exact lt_irrefl (-π) h.1

/-- Claim C7, amended: `TwoAngleInterpolation::init` maps `p0` and `pe` into
the half-open interval `[-π, π)` (not `(-π, π]`) via
`normalize(x) = ((x + π) mod 2π) - π`, and sets the AccSolver target to
`p0_norm + normalize(pe_norm - p0_norm)`; for `p0 = 3`, `pe = -3` this takes
the positive shortest arc `2π - 6`. -/
theorem claim_C7_amended :
    (∀ x : ℝ, normalizeAxis x ∈ Set.Ico (-π) π) ∧
      (∀ p0 pe : ℝ,
        angleInit p0 pe =
          (normalizeAxis p0, normalizeAxis p0 + normalizeAxis (normalizeAxis pe - normalizeAxis p0))) ∧
      angleInit 3 (-3) = (3, 3 + (2 * π - 6)) ∧ 0 < 2 * π - 6 := by
  refine ⟨normalizeAxis_mem_Ico, fun p0 pe => rfl, ?_, ?_⟩
  · have h1 : normalizeAxis (3 : ℝ) = 3 := normalizeAxis_three
    have h2 : normalizeAxis (-3 : ℝ) = -3 := normalizeAxis_neg_three
    simp only [angleInit, h1, h2]
    rw [show (-3 : ℝ) - 3 = -6 by norm_num, normalizeAxis_neg_six]
  · have h3 : (3 : ℝ) < π := Real.pi_gt_three
    linarith

lemma quad_eval_plus (A B C disc : ℝ) (hA : A ≠ 0) (hd : 0 ≤ disc)
    (hdisc : disc = B * B - 4 * A * C) :
    A * ((-B + Real.sqrt disc) / (2 * A)) ^ 2 + B * ((-B + Real.sqrt disc) / (2 * A)) + C = 0 := by
  have hs : Real.sqrt disc ^ 2 = disc := Real.sq_sqrt hd
  set s := Real.sqrt disc with hsdef
  have expand : A * ((-B + s) / (2 * A)) ^ 2 + B * ((-B + s) / (2 * A)) + C =
      (s ^ 2 - (B * B - 4 * A * C)) / (4 * A) := by
    field_simp
    ring
  rw [expand, hs, hdisc]
  simp

lemma quad_eval_minus (A B C disc : ℝ) (hA : A ≠ 0) (hd : 0 ≤ disc)
    (hdisc : disc = B * B - 4 * A * C) :
    A * ((-B - Real.sqrt disc) / (2 * A)) ^ 2 + B * ((-B - Real.sqrt disc) / (2 * A)) + C = 0 := by
  have hs : Real.sqrt disc ^ 2 = disc := Real.sq_sqrt hd
  set s := Real.sqrt disc with hsdef
  have expand : A * ((-B - s) / (2 * A)) ^ 2 + B * ((-B - s) / (2 * A)) + C =
      (s ^ 2 - (B * B - 4 * A * C)) / (4 * A) := by
    field_simp
    ring
  rw [expand, hs, hdisc]
  simp

lemma quad_roots_complete (A B C disc r : ℝ) (hA : A ≠ 0) (hd : 0 ≤ disc)
    (hdisc : disc = B * B - 4 * A * C) (hr : A * r ^ 2 + B * r + C = 0) :
    r = (-B + Real.sqrt disc) / (2 * A) ∨ r = (-B - Real.sqrt disc) / (2 * A) := by
  have hs : Real.sqrt disc ^ 2 = disc := Real.sq_sqrt hd
  have key : (2 * A * r + B - Real.sqrt disc) * (2 * A * r + B + Real.sqrt disc) = 0 := by
    linear_combination 4 * A * hr - hs - hdisc
  rcases mul_eq_zero.mp key with h | h
  · left; field_simp; linarith
  · right; field_simp; linarith

lemma chooseRoot_some {A B disc t : ℝ} (h : chooseRoot A B disc = some t) :
    (t = (-B + Real.sqrt disc) / (2 * A) ∨ t = (-B - Real.sqrt disc) / (2 * A)) ∧ 0 < t ∧
      (0 < (-B + Real.sqrt disc) / (2 * A) → t ≤ (-B + Real.sqrt disc) / (2 * A)) ∧
      (0 < (-B - Real.sqrt disc) / (2 * A) → t ≤ (-B - Real.sqrt disc) / (2 * A)) := by
  simp only [chooseRoot] at h
  set rp := (-B + Real.sqrt disc) / (2 * A) with hrp
  set rm := (-B - Real.sqrt disc) / (2 * A) with hrm
  split_ifs at h with h1 h2 h3
  · have ht : min rp rm = t := Option.some.inj h
    refine ⟨?_, ?_, fun _ => ?_, fun _ => ?_⟩
    · rcases min_choice rp rm with hc | hc
      · left; rw [← ht, hc]
      · right; rw [← ht, hc]
    · rw [← ht]; exact lt_min h1.1 h1.2
    · rw [← ht]; exact min_le_left _ _
    · rw [← ht]; exact min_le_right _ _
  · have ht : rp = t := Option.some.inj h
    refine ⟨Or.inl ht.symm, ht ▸ h2, fun _ => le_of_eq ht.symm, fun hm => ?_⟩
    exact absurd ⟨h2, hm⟩ h1
  · have ht : rm = t := Option.some.inj h
    refine ⟨Or.inr ht.symm, ht ▸ h3, fun hp => absurd hp h2, fun _ => le_of_eq ht.symm⟩

lemma chooseRoot_none_of {A B disc : ℝ} (hp : ¬ 0 < (-B + Real.sqrt disc) / (2 * A))
    (hm : ¬ 0 < (-B - Real.sqrt disc) / (2 * A)) : chooseRoot A B disc = none := by
  simp only [chooseRoot]
  split_ifs with h1
  · exact absurd h1.1 hp
  · rfl

lemma solveT1_err_disc {v0 ve dp acc dec sgn : ℝ}
    (hd : ¬ 0 < quadDisc v0 ve dp acc dec) :
    solveT1 v0 ve dp acc dec sgn =
      Except.error (raiseDecelerationError v0 ve dp dec sgn DecelContext.discriminant) := by
  simp only [solveT1]
  exact if_neg hd

lemma solveT1_err_nopos {v0 ve dp acc dec sgn : ℝ}
    (hd : 0 < quadDisc v0 ve dp acc dec)
    (hcr : chooseRoot (quadA acc dec) (quadB v0 acc dec) (quadDisc v0 ve dp acc dec) = none) :
    solveT1 v0 ve dp acc dec sgn =
      Except.error (raiseDecelerationError v0 ve dp dec sgn DecelContext.noPositiveSolution) := by
  simp only [solveT1]
  rw [if_pos hd, hcr]
lemma solveT1_ok {v0 ve dp acc dec sgn t : ℝ}
    (h : solveT1 v0 ve dp acc dec sgn = Except.ok t) :
    0 < quadDisc v0 ve dp acc dec ∧
      chooseRoot (quadA acc dec) (quadB v0 acc dec) (quadDisc v0 ve dp acc dec) = some t := by
  by_cases hd : 0 < quadDisc v0 ve dp acc dec
  · refine ⟨hd, ?_⟩
    cases hcr : chooseRoot (quadA acc dec) (quadB v0 acc dec) (quadDisc v0 ve dp acc dec) with
    | none =>
      rw [solveT1_err_nopos hd hcr] at h
      exact absurd h (by simp)
    | some u =>
      simp only [solveT1] at h
      rw [if_pos hd, hcr] at h
      simp only [Except.ok.injEq] at h
      exact congrArg some h
  · rw [solveT1_err_disc hd] at h
    exact absurd h (by simp)


lemma accSgn_cases {dp : ℝ} (h : dp ≠ 0) : accSgn dp = 1 ∨ accSgn dp = -1 := by
  rcases lt_or_gt_of_ne h with hneg | hpos
  · right; rw [accSgn, abs_of_neg hneg]; field_simp
  · left; rw [accSgn, abs_of_pos hpos]; field_simp

lemma accSgn_ne_zero {dp : ℝ} (h : dp ≠ 0) : accSgn dp ≠ 0 := by
  rcases accSgn_cases h with hs | hs <;> rw [hs] <;> norm_num

lemma ratio_cancel {dp amax dmax : ℝ} (h : dp ≠ 0) :
    amax * accSgn dp / (dmax * accSgn dp) = amax / dmax :=
  mul_div_mul_right _ _ (accSgn_ne_zero h)

lemma quadA_ne_zero {dp amax dmax : ℝ} (h : dp ≠ 0) (ha : 0 < amax) (hd : 0 < dmax) :
    quadA (amax * accSgn dp) (dmax * accSgn dp) ≠ 0 := by
  rw [quadA, ratio_cancel h]
  have hratio : 0 < amax / dmax := div_pos ha hd
  have hs := accSgn_ne_zero h
  intro hc
  rcases mul_eq_zero.mp hc with hc2 | hc2
  · rcases mul_eq_zero.mp hc2 with hc3 | hc3
    · norm_num at hc3
    · exact mul_ne_zero (ne_of_gt ha) hs hc3
  · linarith

lemma calcTrajectory_sentinel (t0 p0 v0 pe ve aa ad vm : ℝ) (h1 : pe - p0 = 0)
    (h2 : ve - v0 = 0) :
    calcTrajectory t0 p0 v0 pe ve aa ad vm = Except.ok ⟨[], [], [v0], [p0], -1⟩ := by
  simp only [calcTrajectory]
  rw [if_pos h1, if_pos h2]

lemma calcTrajectory_case0_eq (t0 p0 v0 pe ve aa ad vm dt01 : ℝ) (hdp : pe - p0 ≠ 0)
    (hsol : solveT1 v0 ve (pe - p0) (aa * accSgn (pe - p0)) (ad * accSgn (pe - p0))
        (accSgn (pe - p0)) = Except.ok dt01)
    (hv1 : |vInteg v0 (aa * accSgn (pe - p0)) dt01| < vm) :
    calcTrajectory t0 p0 v0 pe ve aa ad vm =
      Except.ok (case0Plan p0 v0 (aa * accSgn (pe - p0)) (ad * accSgn (pe - p0)) dt01 ve) := by
  simp only [calcTrajectory]
  rw [if_neg hdp, hsol]
  simp only [if_pos hv1]

lemma calcTrajectory_case1_eq (t0 p0 v0 pe ve aa ad vm dt01 : ℝ) (hdp : pe - p0 ≠ 0)
    (hsol : solveT1 v0 ve (pe - p0) (aa * accSgn (pe - p0)) (ad * accSgn (pe - p0))
        (accSgn (pe - p0)) = Except.ok dt01)
    (hv1 : ¬|vInteg v0 (aa * accSgn (pe - p0)) dt01| < vm)
    (hdt12 : ¬case1dt12 p0 v0 pe ve (aa * accSgn (pe - p0)) (ad * accSgn (pe - p0)) vm < 0) :
    calcTrajectory t0 p0 v0 pe ve aa ad vm =
      Except.ok (case1Plan p0 v0 pe ve (aa * accSgn (pe - p0)) (ad * accSgn (pe - p0)) vm) := by
  simp only [calcTrajectory]
  rw [if_neg hdp, hsol]
  simp only [if_neg hv1, if_neg hdt12]

lemma calcTrajectory_ok_cases {t0 p0 v0 pe ve aa ad vm : ℝ} {pl : AccPlan}
    (h : calcTrajectory t0 p0 v0 pe ve aa ad vm = Except.ok pl) :
    (pe - p0 = 0 ∧ ve - v0 = 0 ∧ pl = ⟨[], [], [v0], [p0], -1⟩) ∨
      (pe - p0 ≠ 0 ∧ ∃ dt01,
        solveT1 v0 ve (pe - p0) (aa * accSgn (pe - p0)) (ad * accSgn (pe - p0))
            (accSgn (pe - p0)) = Except.ok dt01 ∧
          ((|vInteg v0 (aa * accSgn (pe - p0)) dt01| < vm ∧
              pl = case0Plan p0 v0 (aa * accSgn (pe - p0)) (ad * accSgn (pe - p0)) dt01 ve) ∨
            (¬|vInteg v0 (aa * accSgn (pe - p0)) dt01| < vm ∧
              ¬case1dt12 p0 v0 pe ve (aa * accSgn (pe - p0)) (ad * accSgn (pe - p0)) vm < 0 ∧
              pl = case1Plan p0 v0 pe ve (aa * accSgn (pe - p0)) (ad * accSgn (pe - p0)) vm))) := by
  by_cases hdp : pe - p0 = 0
  · by_cases hdv : ve - v0 = 0
    · left
      rw [calcTrajectory_sentinel t0 p0 v0 pe ve aa ad vm hdp hdv] at h
      exact ⟨hdp, hdv, (Except.ok.inj h).symm⟩
    · exfalso
      simp only [calcTrajectory] at h
      rw [if_pos hdp, if_neg hdv] at h
      exact absurd h (by simp)
  · right
    refine ⟨hdp, ?_⟩
    simp only [calcTrajectory] at h
    rw [if_neg hdp] at h
    cases hsol : solveT1 v0 ve (pe - p0) (aa * accSgn (pe - p0)) (ad * accSgn (pe - p0))
        (accSgn (pe - p0)) with
    | error e =>
      rw [hsol] at h
      exact absurd h (by simp)
    | ok dt01 =>
      rw [hsol] at h
      refine ⟨dt01, rfl, ?_⟩
      by_cases hv1 : |vInteg v0 (aa * accSgn (pe - p0)) dt01| < vm
      · left
        simp only [if_pos hv1] at h
        exact ⟨hv1, (Except.ok.inj h).symm⟩
      · right
        by_cases hdt12 :
            case1dt12 p0 v0 pe ve (aa * accSgn (pe - p0)) (ad * accSgn (pe - p0)) vm < 0
        · exfalso
          simp only [if_neg hv1, if_pos hdt12] at h
          exact absurd h (by simp)
        · simp only [if_neg hv1, if_neg hdt12] at h
          exact ⟨hv1, hdt12, (Except.ok.inj h).symm⟩

lemma quadPoly_eq (v0 ve dp acc dec : ℝ) (r : ℝ) :
    0.5 * acc * (1 + acc / dec) * r ^ 2 + v0 * (1 + acc / dec) * r +
        (-dp + (v0 * v0 - ve * ve) / (2 * dec)) =
      quadA acc dec * r ^ 2 + quadB v0 acc dec * r + quadC v0 ve dp dec := by
  rw [quadA, quadB, quadC]

lemma quadDisc_unfold (v0 ve dp acc dec : ℝ) :
    quadDisc v0 ve dp acc dec =
      quadB v0 acc dec * quadB v0 acc dec - 4 * quadA acc dec * quadC v0 ve dp dec := rfl

/-- Claim C2: with `Δp ≠ 0`, `s = sign(Δp)`, `acc = s·amax`, `dec = s·dmax`, a
successfully solved acceleration-leg duration is the smallest strictly
positive root of the planning quadratic
`½·acc·(1+acc/dec)·t² + v0·(1+acc/dec)·t + (−Δp + (v0²−ve²)/(2·dec)) = 0`;
when the discriminant is non-positive or no strictly positive root exists the
solve step fails through the deceleration-feasibility diagnostic, and a solve
failure is exactly the planning failure of `calcTrajectory`. -/
theorem claim_C2 (v0 ve dp amax dmax s acc dec : ℝ) (hdp : dp ≠ 0) (ha : 0 < amax)
    (hd : 0 < dmax) (hs : s = dp / |dp|) (hacc : acc = amax * s) (hdec : dec = dmax * s) :
    (∀ t, solveT1 v0 ve dp acc dec s = Except.ok t →
        (0.5 * acc * (1 + acc / dec) * t ^ 2 + v0 * (1 + acc / dec) * t +
            (-dp + (v0 * v0 - ve * ve) / (2 * dec)) = 0 ∧
          0 < t ∧
          ∀ r, 0 < r →
            0.5 * acc * (1 + acc / dec) * r ^ 2 + v0 * (1 + acc / dec) * r +
              (-dp + (v0 * v0 - ve * ve) / (2 * dec)) = 0 → t ≤ r)) ∧
      (quadDisc v0 ve dp acc dec ≤ 0 →
        solveT1 v0 ve dp acc dec s =
          Except.error (raiseDecelerationError v0 ve dp dec s DecelContext.discriminant)) ∧
      (0 < quadDisc v0 ve dp acc dec →
        (¬∃ r, 0 < r ∧
            0.5 * acc * (1 + acc / dec) * r ^ 2 + v0 * (1 + acc / dec) * r +
              (-dp + (v0 * v0 - ve * ve) / (2 * dec)) = 0) →
        solveT1 v0 ve dp acc dec s =
          Except.error (raiseDecelerationError v0 ve dp dec s DecelContext.noPositiveSolution)) ∧
      (∀ e t0 p0 vmax, solveT1 v0 ve dp acc dec s = Except.error e →
        calcTrajectory t0 p0 v0 (p0 + dp) ve amax dmax vmax = Except.error e) := by
  have hsgn : accSgn dp = s := by rw [accSgn, hs]
  have hacc2 : acc = amax * accSgn dp := by rw [hsgn, hacc]
  have hdec2 : dec = dmax * accSgn dp := by rw [hsgn, hdec]
  have hA : quadA acc dec ≠ 0 := by rw [hacc2, hdec2]; exact quadA_ne_zero hdp ha hd
  refine ⟨?_, ?_, ?_, ?_⟩
  · intro t ht
    obtain ⟨hdisc, hcr⟩ := solveT1_ok ht
    obtain ⟨hroots, hpos, hminp, hminm⟩ := chooseRoot_some hcr
    have hdnn : 0 ≤ quadDisc v0 ve dp acc dec := le_of_lt hdisc
    refine ⟨?_, hpos, ?_⟩
    · rw [quadPoly_eq]
      rcases hroots with hre | hre
      · rw [hre]
        exact quad_eval_plus _ _ _ _ hA hdnn (quadDisc_unfold v0 ve dp acc dec)
      · rw [hre]
        exact quad_eval_minus _ _ _ _ hA hdnn (quadDisc_unfold v0 ve dp acc dec)
    · intro r hr hroot
      rw [quadPoly_eq] at hroot
      rcases quad_roots_complete _ _ _ _ r hA hdnn (quadDisc_unfold v0 ve dp acc dec) hroot
          with hre | hre
      · exact le_trans (hminp (hre ▸ hr)) (le_of_eq hre.symm)
      · exact le_trans (hminm (hre ▸ hr)) (le_of_eq hre.symm)
  · intro hle
    exact solveT1_err_disc (not_lt.mpr hle)
  · intro hdisc hno
    have hdnn : 0 ≤ quadDisc v0 ve dp acc dec := le_of_lt hdisc
    apply solveT1_err_nopos hdisc
    apply chooseRoot_none_of
    · intro hp
      refine hno ⟨_, hp, ?_⟩
      rw [quadPoly_eq]
      exact quad_eval_plus _ _ _ _ hA hdnn (quadDisc_unfold v0 ve dp acc dec)
    · intro hm
      refine hno ⟨_, hm, ?_⟩
      rw [quadPoly_eq]
      exact quad_eval_minus _ _ _ _ hA hdnn (quadDisc_unfold v0 ve dp acc dec)
  · intro e t0 p0 vmax hsol
    simp only [calcTrajectory]
    rw [show p0 + dp - p0 = dp from by ring, if_neg hdp, hsgn, ← hacc, ← hdec, hsol]

/-- Witness for claim C2 at `v0 = 0`, `ve = 0`, `Δp = 1`, `amax = dmax = 1`. -/
theorem claim_C2_witness :
    ((1 : ℝ) ≠ 0) ∧ ((0 : ℝ) < 1) ∧ ((1 : ℝ) = 1 / |(1 : ℝ)|) ∧ ((1 : ℝ) = 1 * 1) ∧
      ((∀ t, solveT1 0 0 1 1 1 1 = Except.ok t →
          (0.5 * 1 * (1 + 1 / 1) * t ^ 2 + 0 * (1 + 1 / 1) * t +
              (-1 + (0 * 0 - 0 * 0) / (2 * 1)) = 0 ∧
            0 < t ∧
            ∀ r, 0 < r →
              0.5 * 1 * (1 + 1 / 1) * r ^ 2 + 0 * (1 + 1 / 1) * r +
                (-1 + (0 * 0 - 0 * 0) / (2 * 1)) = 0 → t ≤ r)) ∧
        (quadDisc 0 0 1 1 1 ≤ 0 →
          solveT1 0 0 1 1 1 1 =
            Except.error (raiseDecelerationError 0 0 1 1 1 DecelContext.discriminant)) ∧
        (0 < quadDisc 0 0 1 1 1 →
          (¬∃ r : ℝ, 0 < r ∧
              0.5 * 1 * (1 + 1 / 1) * r ^ 2 + 0 * (1 + 1 / 1) * r +
                (-1 + (0 * 0 - 0 * 0) / (2 * 1)) = 0) →
          solveT1 0 0 1 1 1 1 =
            Except.error (raiseDecelerationError 0 0 1 1 1 DecelContext.noPositiveSolution)) ∧
        (∀ e t0 p0 vmax, solveT1 0 0 1 1 1 1 = Except.error e →
          calcTrajectory t0 p0 0 (p0 + 1) 0 1 1 vmax = Except.error e)) :=
  ⟨by norm_num, by norm_num, by norm_num, by norm_num,
    claim_C2 0 0 1 1 1 1 1 1 (by norm_num) (by norm_num) (by norm_num) (by norm_num)
      (by norm_num) (by norm_num)⟩

/-- Claim C6: the deceleration-feasibility diagnostic classifies with
`d_brake = (v0² − ve²)/(2·dmax)`: moving toward the target with `d_brake`
within 2% of `|Δp|` gives GoalTooClose; moving toward the target with
`d_brake > |Δp|` gives InsufficientBrakingDistance carrying the shortage;
otherwise InfeasibleConstraints.  Every `solveT1` failure is such a
classification. -/
theorem claim_C6 (v0 ve dp dmax s : ℝ) (hdp : dp ≠ 0) (hd : 0 < dmax)
    (hs : s = dp / |dp|) :
    (∀ ctx,
      raiseDecelerationError v0 ve dp (dmax * s) s ctx =
        (if s * v0 > 0 ∧
            abs ((v0 * v0 - ve * ve) / (2 * dmax) - |dp|) < |dp| * 0.02 then
          PlanError.goalTooClose
        else if s * v0 > 0 ∧ (v0 * v0 - ve * ve) / (2 * dmax) > |dp| then
          PlanError.insufficientBrakingDistance ((v0 * v0 - ve * ve) / (2 * dmax) - |dp|)
        else PlanError.infeasibleConstraints)) ∧
      ∀ acc e, solveT1 v0 ve dp acc (dmax * s) s = Except.error e →
        ∃ ctx, e = raiseDecelerationError v0 ve dp (dmax * s) s ctx := by
  have hcases : s = 1 ∨ s = -1 := by rw [hs]; exact accSgn_cases hdp
  have habs : |dmax * s| = dmax := by
    rcases hcases with h1 | h1 <;> rw [h1] <;>
      simp [abs_of_pos hd]
  constructor
  · intro ctx
    cases ctx <;>
      simp only [raiseDecelerationError, DECEL_DISTANCE_TOLERANCE, habs]
  · intro acc e hsol
    by_cases hdisc : 0 < quadDisc v0 ve dp acc (dmax * s)
    · cases hcr : chooseRoot (quadA acc (dmax * s)) (quadB v0 acc (dmax * s))
          (quadDisc v0 ve dp acc (dmax * s)) with
      | none =>
        rw [solveT1_err_nopos hdisc hcr] at hsol
        exact ⟨DecelContext.noPositiveSolution, (Except.error.inj hsol).symm⟩
      | some u =>
        rw [solveT1] at hsol
        rw [if_pos hdisc, hcr] at hsol
        exact absurd hsol (by simp)
    · rw [solveT1_err_disc hdisc] at hsol
      exact ⟨DecelContext.discriminant, (Except.error.inj hsol).symm⟩

/-- Witness for claim C6 at `v0 = 0`, `ve = 0`, `Δp = 1`, `dmax = 1`. -/
theorem claim_C6_witness :
    ((1 : ℝ) ≠ 0) ∧ ((0 : ℝ) < 1) ∧ ((1 : ℝ) = 1 / |(1 : ℝ)|) ∧
      ((∀ ctx,
        raiseDecelerationError 0 0 1 (1 * 1) 1 ctx =
          (if (1 : ℝ) * 0 > 0 ∧
              abs ((0 * 0 - 0 * 0) / (2 * 1) - |(1 : ℝ)|) < |(1 : ℝ)| * 0.02 then
            PlanError.goalTooClose
          else if (1 : ℝ) * 0 > 0 ∧ (0 * 0 - 0 * 0) / (2 * 1) > |(1 : ℝ)| then
            PlanError.insufficientBrakingDistance ((0 * 0 - 0 * 0) / (2 * 1) - |(1 : ℝ)|)
          else PlanError.infeasibleConstraints)) ∧
        ∀ acc e, solveT1 0 0 1 acc (1 * 1) 1 = Except.error e →
          ∃ ctx, e = raiseDecelerationError 0 0 1 (1 * 1) 1 ctx) :=
  ⟨by norm_num, by norm_num, by norm_num,
    claim_C6 0 0 1 1 1 (by norm_num) (by norm_num) (by norm_num)⟩

/-- Claim C4, counterexample: the claim says an explicitly supplied
`dmax ≤ 0` fails with InvalidConstraint, but supplying `dec_max = -2`
succeeds, silently defaulting the deceleration limit to `amax`. -/
theorem claim_C4_counterexample :
    setConstraints 1 1 (-2) = Except.ok (1, 1, 1) ∧
      ∀ e, setConstraints 1 1 (-2) ≠ Except.error e := by
  have h : setConstraints 1 1 (-2) = Except.ok (1, 1, 1) := by
    simp only [setConstraints]
    rw [if_neg (by norm_num : ¬(1 : ℝ) ≤ 0), if_neg (by norm_num : ¬(1 : ℝ) ≤ 0),
      if_pos (by norm_num : (-2 : ℝ) < 0)]
  exact ⟨h, fun e => by rw [h]; simp⟩

/-- Claim C4, amended: configuration fails with InvalidConstraint exactly when
`amax ≤ 0`, `vmax ≤ 0`, or a supplied `dec_max` equals 0; any negative
`dec_max` (including the omitted-argument sentinel `-1`) is treated as
omitted and defaults the deceleration limit to `amax`, succeeding for
positive `amax`, `vmax`. -/
theorem claim_C4_amended :
    (∀ amax vmax dec_max : ℝ,
        (setConstraints amax vmax dec_max = Except.error PlanError.invalidConstraint ↔
          amax ≤ 0 ∨ vmax ≤ 0 ∨ dec_max = 0) ∧
          (0 < amax → 0 < vmax → dec_max < 0 →
            setConstraints amax vmax dec_max = Except.ok (amax, vmax, amax)) ∧
          (0 < amax → 0 < vmax → 0 < dec_max →
            setConstraints amax vmax dec_max = Except.ok (amax, vmax, dec_max))) ∧
      ∀ amax vmax : ℝ, 0 < amax → 0 < vmax →
        setConstraints amax vmax = Except.ok (amax, vmax, amax) := by
  constructor
  · intro amax vmax dec_max
    simp only [setConstraints]
    split_ifs with h1 h2 h3 h4
    · exact ⟨⟨fun _ => Or.inl h1, fun _ => rfl⟩,
        fun ha _ _ => absurd h1 (not_le.mpr ha), fun ha _ _ => absurd h1 (not_le.mpr ha)⟩
    · exact ⟨⟨fun _ => Or.inr (Or.inl h2), fun _ => rfl⟩,
        fun _ hv _ => absurd h2 (not_le.mpr hv), fun _ hv _ => absurd h2 (not_le.mpr hv)⟩
    · refine ⟨⟨fun hok => absurd hok (by simp), fun hd => ?_⟩,
        fun _ _ _ => rfl, fun _ _ hdpos => absurd h3 (asymm hdpos)⟩
      rcases hd with hd | hd | hd
      · exact absurd hd h1
      · exact absurd hd h2
      · exact absurd hd (ne_of_lt h3)
    · exact ⟨⟨fun _ => Or.inr (Or.inr h4), fun _ => rfl⟩,
        fun _ _ hdneg => absurd hdneg h3, fun _ _ hdpos => absurd h4 (ne_of_gt hdpos)⟩
    · refine ⟨⟨fun hok => absurd hok (by simp), fun hd => ?_⟩,
        fun _ _ hdneg => absurd hdneg h3, fun _ _ _ => rfl⟩
      rcases hd with hd | hd | hd
      · exact absurd hd h1
      · exact absurd hd h2
      · exact absurd hd h4
  · intro amax vmax ha hv
    simp only [setConstraints]
    rw [if_neg (not_le.mpr ha), if_neg (not_le.mpr hv), if_pos (by norm_num : (-1 : ℝ) < 0)]

/-- Witness for the amended claim C4 at `amax = 2`, `vmax = 3`, omitted `dec_max`. -/
theorem claim_C4_amended_witness :
    ((0 : ℝ) < 2) ∧ ((0 : ℝ) < 3) ∧ setConstraints 2 3 = Except.ok (2, 3, 2) :=
  ⟨by norm_num, by norm_num, claim_C4_amended.2 2 3 (by norm_num) (by norm_num)⟩

/-- Claim C3: the constant-jerk case selection for `Δp ≠ 0`.  With the
triangular candidate `t1 = cbrt(|Δp|/(2·jmax))`, peak acceleration
`a_peak = t1·jmax` and peak velocity `v_peak = a_peak·t1`: Case 0 when both
below their limits (total `4·t1`); Case 1 when only the velocity limit is
reached (`t1 = sqrt(vmax/jmax)`, `t2 = |Δp|/vmax − 2·t1`, total `4·t1 + t2`);
when `a_peak ≥ amax`, with `t1 = amax/jmax` and
`t2 = −1.5·t1 + 0.5·sqrt(4·|Δp|/amax + t1²/3)`: Case 2 if `(t1+t2)·amax < vmax`
(total `4·t1 + 2·t2`) and otherwise Case 3 with `t2 = vmax/amax − t1`,
`t3 = |Δp|/vmax − 2·t1 − t2` and total `4·t1 + 2·t2 + t3`. -/
theorem claim_C3 (p0 v0 pe ve amax vmax jmax t1 t1b t2 : ℝ) (hdp : pe - p0 ≠ 0)
    (ht1 : t1 = (|pe - p0| / 2 / jmax) ^ ((1 : ℝ) / 3))
    (ht1b : t1b = amax / jmax)
    (ht2 : t2 = -1.5 * t1b + 0.5 * Real.sqrt (4 * |pe - p0| / amax + t1b ^ 2 / 3)) :
    (t1 * jmax < amax → t1 * jmax * t1 < vmax →
        jerkCalcTrajectory p0 v0 pe ve amax vmax jmax =
          Except.ok ⟨0, t1, none, none, 4 * t1⟩) ∧
      (t1 * jmax < amax → ¬t1 * jmax * t1 < vmax →
        jerkCalcTrajectory p0 v0 pe ve amax vmax jmax =
          Except.ok ⟨1, Real.sqrt (vmax / jmax),
            some (|pe - p0| / vmax - 2 * Real.sqrt (vmax / jmax)), none,
            4 * Real.sqrt (vmax / jmax) + (|pe - p0| / vmax - 2 * Real.sqrt (vmax / jmax))⟩) ∧
      (¬t1 * jmax < amax → (t1b + t2) * amax < vmax →
        jerkCalcTrajectory p0 v0 pe ve amax vmax jmax =
          Except.ok ⟨2, t1b, some t2, none, 4 * t1b + 2 * t2⟩) ∧
      (¬t1 * jmax < amax → ¬(t1b + t2) * amax < vmax →
        jerkCalcTrajectory p0 v0 pe ve amax vmax jmax =
          Except.ok ⟨3, t1b, some (vmax / amax - t1b),
            some (|pe - p0| / vmax - 2 * t1b - (vmax / amax - t1b)),
            4 * t1b + 2 * (vmax / amax - t1b) +
              (|pe - p0| / vmax - 2 * t1b - (vmax / amax - t1b))⟩) := by
  subst ht1 ht1b
  have ht2e : t2 = -1.5 * (amax / jmax) +
      Real.sqrt (4 * |pe - p0| / amax + 1 / 3 * (amax / jmax) * (amax / jmax)) / 2 := by
    rw [ht2, show 4 * |pe - p0| / amax + (amax / jmax) ^ 2 / 3 =
      4 * |pe - p0| / amax + 1 / 3 * (amax / jmax) * (amax / jmax) from by ring]
    ring
  subst ht2e
  refine ⟨fun hacc hv => ?_, fun hacc hv => ?_, fun hacc hv => ?_, fun hacc hv => ?_⟩
  · simp only [jerkCalcTrajectory]
    rw [if_neg hdp, if_pos hacc, if_pos hv]
  · simp only [jerkCalcTrajectory]
    rw [if_neg hdp, if_pos hacc, if_neg hv]
  · simp only [jerkCalcTrajectory]
    rw [if_neg hdp, if_neg hacc, if_pos hv]
  · simp only [jerkCalcTrajectory]
    rw [if_neg hdp, if_neg hacc, if_neg hv]

/-- Witness for claim C3 at `p0 = 0`, `pe = 2`, `amax = vmax = 10`, `jmax = 1`
(where the triangular candidate has `t1 = 1`). -/
theorem claim_C3_witness :
    ((2 : ℝ) - 0 ≠ 0) ∧
      ((1 : ℝ) = (|(2 : ℝ) - 0| / 2 / 1) ^ ((1 : ℝ) / 3)) ∧
      (((1 : ℝ) * 1 < 10 → (1 : ℝ) * 1 * 1 < 10 →
          jerkCalcTrajectory 0 0 2 0 10 10 1 = Except.ok ⟨0, 1, none, none, 4 * 1⟩) ∧
        ((1 : ℝ) * 1 < 10 → ¬(1 : ℝ) * 1 * 1 < 10 →
          jerkCalcTrajectory 0 0 2 0 10 10 1 =
            Except.ok ⟨1, Real.sqrt (10 / 1),
              some (|(2 : ℝ) - 0| / 10 - 2 * Real.sqrt (10 / 1)), none,
              4 * Real.sqrt (10 / 1) + (|(2 : ℝ) - 0| / 10 - 2 * Real.sqrt (10 / 1))⟩) ∧
        (¬(1 : ℝ) * 1 < 10 →
          ((10 : ℝ) / 1 +
              (-1.5 * (10 / 1) + 0.5 * Real.sqrt (4 * |(2 : ℝ) - 0| / 10 + (10 / 1) ^ 2 / 3))) *
              10 < 10 →
          jerkCalcTrajectory 0 0 2 0 10 10 1 =
            Except.ok ⟨2, 10 / 1,
              some (-1.5 * (10 / 1) + 0.5 * Real.sqrt (4 * |(2 : ℝ) - 0| / 10 + (10 / 1) ^ 2 / 3)),
              none,
              4 * (10 / 1) +
                2 * (-1.5 * (10 / 1) +
                  0.5 * Real.sqrt (4 * |(2 : ℝ) - 0| / 10 + (10 / 1) ^ 2 / 3))⟩) ∧
        (¬(1 : ℝ) * 1 < 10 →
          ¬((10 : ℝ) / 1 +
              (-1.5 * (10 / 1) + 0.5 * Real.sqrt (4 * |(2 : ℝ) - 0| / 10 + (10 / 1) ^ 2 / 3))) *
              10 < 10 →
          jerkCalcTrajectory 0 0 2 0 10 10 1 =
            Except.ok ⟨3, 10 / 1, some (10 / (10 : ℝ) - 10 / 1),
              some (|(2 : ℝ) - 0| / 10 - 2 * (10 / 1) - (10 / (10 : ℝ) - 10 / 1)),
              4 * (10 / 1) + 2 * (10 / (10 : ℝ) - 10 / 1) +
                (|(2 : ℝ) - 0| / 10 - 2 * (10 / 1) - (10 / (10 : ℝ) - 10 / 1))⟩)) :=
  ⟨by norm_num,
    by rw [show |(2 : ℝ) - 0| / 2 / 1 = 1 by norm_num, Real.one_rpow],
    claim_C3 0 0 2 0 10 10 1 1 (10 / 1)
      (-1.5 * (10 / 1) + 0.5 * Real.sqrt (4 * |(2 : ℝ) - 0| / 10 + (10 / 1) ^ 2 / 3))
      (by norm_num)
      (by rw [show |(2 : ℝ) - 0| / 2 / 1 = 1 by norm_num, Real.one_rpow])
      rfl rfl⟩

lemma solveT1_pos {v0 ve dp acc dec sgn t : ℝ}
    (h : solveT1 v0 ve dp acc dec sgn = Except.ok t) : 0 < t :=
  (chooseRoot_some (solveT1_ok h).2).2.1

lemma findPhaseIdx_two (d0 d1 tau : ℝ) :
    findPhaseIdx [d0, d1] tau =
      if tau ≤ d0 then some 0 else if tau ≤ d0 + d1 then some 1 else none := by
  rw [findPhaseIdx, findPhaseFrom, findPhaseFrom, findPhaseFrom]
  simp [sumTake]

lemma findPhaseIdx_three (d0 d1 d2 tau : ℝ) :
    findPhaseIdx [d0, d1, d2] tau =
      if tau ≤ d0 then some 0
      else if tau ≤ d0 + d1 then some 1
      else if tau ≤ d0 + (d1 + d2) then some 2 else none := by
  rw [findPhaseIdx, findPhaseFrom, findPhaseFrom, findPhaseFrom, findPhaseFrom]
  simp [sumTake]

lemma getPoint_sentinel (t0 p0 v0 pe ve t : ℝ) :
    getPoint t0 p0 v0 pe ve ⟨[], [], [v0], [p0], -1⟩ t = (p0, v0, 0) := by
  simp [getPoint]

lemma getPoint_t0_case0 (t0 p0 v0 pe ve acc dec dt01 : ℝ) (h01 : 0 < dt01) :
    getPoint t0 p0 v0 pe ve (case0Plan p0 v0 acc dec dt01 ve) t0 = (p0, v0, acc) := by
  have hnn : (0 : ℝ) ≤ |(vInteg v0 acc dt01 - ve) / dec| := abs_nonneg _
  simp only [getPoint, case0Plan, sub_self]
  rw [if_neg (by norm_num : ¬(0 : ℤ) = -1), if_neg (lt_irrefl (0 : ℝ))]
  rw [if_neg (by
    simp only [sumTake, List.length_cons, List.length_nil, List.take, List.sum_cons,
      List.sum_nil]
    intro hc
    nlinarith)]
  rw [findPhaseIdx_two, if_pos h01.le]
  simp only [sumTake, List.take, List.sum_nil, List.getD_cons_zero]
  rw [pInteg, vInteg]
  norm_num

lemma case1dt12_nonneg_total {p0 v0 pe ve acc dec vmax : ℝ} (hdp : pe - p0 ≠ 0)
    (hvm : 0 < vmax)
    (h0 : 0 ≤ (vmax * (pe - p0) / |pe - p0| - v0) / acc)
    (h12 : ¬case1dt12 p0 v0 pe ve acc dec vmax < 0) :
    0 < (vmax * (pe - p0) / |pe - p0| - v0) / acc +
        (case1dt12 p0 v0 pe ve acc dec vmax +
          |(vmax * (pe - p0) / |pe - p0| - ve) / dec|) := by
  set w1 := vmax * (pe - p0) / |pe - p0| with hw1
  have hw1ne : w1 ≠ 0 := by
    rw [hw1]
    apply div_ne_zero (mul_ne_zero (ne_of_gt hvm) hdp)
    exact abs_ne_zero.mpr hdp
  have h12n : 0 ≤ case1dt12 p0 v0 pe ve acc dec vmax := not_lt.mp h12
  have h2nn : (0 : ℝ) ≤ |(w1 - ve) / dec| := abs_nonneg _
  rcases lt_or_eq_of_le h0 with hlt | heq
  · nlinarith
  rcases lt_or_eq_of_le h12n with hlt | heq12
  · nlinarith
  rcases lt_or_eq_of_le h2nn with hlt | heq2
  · nlinarith
  exfalso
  apply hdp
  have hd0 : (w1 - v0) / acc = 0 := heq.symm
  have hd2 : |(w1 - ve) / dec| = 0 := heq2.symm
  have hd12 : case1dt12 p0 v0 pe ve acc dec vmax = 0 := heq12.symm
  rw [case1dt12, ← hw1, hd0, hd2] at hd12
  rw [pInteg, pInteg] at hd12
  have hnum : pe - (p0 + v0 * 0 + 0.5 * acc * 0 * 0) -
      (0 + w1 * 0 + 0.5 * -dec * 0 * 0) = pe - p0 := by ring
  rw [hnum] at hd12
  rcases div_eq_zero_iff.mp hd12 with hc | hc
  · exact hc
  · exact absurd hc hw1ne

lemma getPoint_t0_case1 (t0 p0 v0 pe ve acc dec vmax : ℝ) (hdp : pe - p0 ≠ 0)
    (hvm : 0 < vmax)
    (h0 : 0 ≤ (vmax * (pe - p0) / |pe - p0| - v0) / acc)
    (h12 : ¬case1dt12 p0 v0 pe ve acc dec vmax < 0) :
    getPoint t0 p0 v0 pe ve (case1Plan p0 v0 pe ve acc dec vmax) t0 = (p0, v0, acc) := by
  have htot := case1dt12_nonneg_total hdp hvm h0 h12
  simp only [getPoint, case1Plan, case1dt12, sub_self]
  rw [if_neg (by norm_num : ¬(1 : ℤ) = -1), if_neg (lt_irrefl (0 : ℝ))]
  rw [if_neg (by
    simp only [sumTake, List.length_cons, List.length_nil, List.take, List.sum_cons,
      List.sum_nil]
    intro hc
    rw [case1dt12] at htot
    nlinarith)]
  rw [findPhaseIdx_three, if_pos h0]
  simp only [sumTake, List.take, List.sum_nil, List.getD_cons_zero]
  rw [pInteg, vInteg]
  norm_num

lemma jerkGetPoint_t0_sentinel (t0 p0 v0 pe ve jmax : ℝ) {jp : JerkPlan}
    (hc : jp.caseNum = -1) :
    jerkGetPoint t0 p0 v0 pe ve jmax jp t0 = (p0, v0, 0, 0) := by
  simp only [jerkGetPoint]
  rw [if_pos hc]

lemma jerkGetPoint_t0_case0 (t0 p0 v0 pe ve jmax : ℝ) {jp : JerkPlan}
    (hc : jp.caseNum = 0) (ht1 : 0 < jp.t1) :
    jerkGetPoint t0 p0 v0 pe ve jmax jp t0 =
      (p0, 0, 0, if pe < p0 then -jmax else jmax) := by
  simp only [jerkGetPoint, sub_self]
  rw [if_neg (by rw [hc]; norm_num), if_pos hc, if_neg (lt_irrefl (0 : ℝ)),
    if_pos (by linarith : (0 : ℝ) < 4 * jp.t1), if_pos ht1]
  by_cases hpp : pe < p0
  · rw [if_pos hpp, if_pos hpp]
    norm_num
  · rw [if_neg hpp, if_neg hpp]
    norm_num

lemma jerkGetPoint_t0_late (t0 p0 v0 pe ve jmax : ℝ) {jp : JerkPlan}
    (hc : ¬jp.caseNum = -1) (hc0 : ¬jp.caseNum = 0) :
    jerkGetPoint t0 p0 v0 pe ve jmax jp t0 = (pe, ve, 0, 0) := by
  simp only [jerkGetPoint, sub_self]
  rw [if_neg hc, if_neg hc0, if_neg (lt_irrefl (0 : ℝ))]

lemma jerkCalc_ok_cases {p0 v0 pe ve amax vmax jmax : ℝ} {jp : JerkPlan}
    (h : jerkCalcTrajectory p0 v0 pe ve amax vmax jmax = Except.ok jp) :
    (pe - p0 = 0 ∧ jp = ⟨-1, 0, none, none, 0⟩) ∨
      (pe - p0 ≠ 0 ∧
        ((jp.caseNum = 0 ∧ jp.t1 = (|pe - p0| / 2 / jmax) ^ ((1 : ℝ) / 3)) ∨
          jp.caseNum = 1 ∨ jp.caseNum = 2 ∨ jp.caseNum = 3)) := by
  by_cases hdp : pe - p0 = 0
  · left
    simp only [jerkCalcTrajectory] at h
    rw [if_pos hdp] at h
    by_cases hve : ve ≠ v0
    · rw [if_pos hve] at h
      exact absurd h (by simp)
    · rw [if_neg hve] at h
      exact ⟨hdp, (Except.ok.inj h).symm⟩
  · right
    refine ⟨hdp, ?_⟩
    simp only [jerkCalcTrajectory] at h
    rw [if_neg hdp] at h
    by_cases hacc : (|pe - p0| / 2 / jmax) ^ ((1 : ℝ) / 3) * jmax < amax
    · rw [if_pos hacc] at h
      by_cases hv : (|pe - p0| / 2 / jmax) ^ ((1 : ℝ) / 3) * jmax *
          ((|pe - p0| / 2 / jmax) ^ ((1 : ℝ) / 3)) < vmax
      · rw [if_pos hv] at h
        have := (Except.ok.inj h).symm
        left
        rw [this]
        exact ⟨rfl, rfl⟩
      · rw [if_neg hv] at h
        have := (Except.ok.inj h).symm
        right; left
        rw [this]
    · rw [if_neg hacc] at h
      by_cases hv2 : (amax / jmax + (-1.5 * (amax / jmax) +
          Real.sqrt (4 * |pe - p0| / amax + 1 / 3 * (amax / jmax) * (amax / jmax)) / 2)) *
          amax < vmax
      · rw [if_pos hv2] at h
        have := (Except.ok.inj h).symm
        right; right; left
        rw [this]
      · rw [if_neg hv2] at h
        have := (Except.ok.inj h).symm
        right; right; right
        rw [this]

lemma accSgn_one : accSgn ((1 : ℝ) - 0) = 1 := by
  rw [accSgn]
  norm_num

lemma sqrt_four : Real.sqrt 4 = 2 := by
  rw [show (4 : ℝ) = 2 ^ 2 by norm_num, Real.sqrt_sq (by norm_num : (0 : ℝ) ≤ 2)]

lemma solveT1_example1 :
    solveT1 0 0 ((1 : ℝ) - 0) (1 * accSgn ((1 : ℝ) - 0)) (1 * accSgn ((1 : ℝ) - 0))
      (accSgn ((1 : ℝ) - 0)) = Except.ok 1 := by
  rw [accSgn_one]
  have hA : quadA ((1 : ℝ) * 1) (1 * 1) = 1 := by rw [quadA]; norm_num
  have hB : quadB 0 ((1 : ℝ) * 1) (1 * 1) = 0 := by rw [quadB]; norm_num
  have hD : quadDisc 0 0 ((1 : ℝ) - 0) (1 * 1) (1 * 1) = 4 := by
    rw [quadDisc, quadA, quadB, quadC]
    norm_num
  have hcr : chooseRoot (quadA ((1 : ℝ) * 1) (1 * 1)) (quadB 0 ((1 : ℝ) * 1) (1 * 1))
      (quadDisc 0 0 ((1 : ℝ) - 0) (1 * 1) (1 * 1)) = some 1 := by
    rw [hA, hB, hD]
    simp only [chooseRoot, sqrt_four]
    norm_num
  simp only [solveT1]
  rw [if_pos (by rw [hD]; norm_num), hcr]

lemma calc_example1 :
    calcTrajectory 0 0 0 1 0 1 1 2 = Except.ok ⟨[1, 1], [1, -1], [0, 1], [0, 0.5], 0⟩ := by
  have hv1 : |vInteg 0 (1 * accSgn ((1 : ℝ) - 0)) 1| < 2 := by
    rw [accSgn_one, vInteg]
    norm_num
  have h := calcTrajectory_case0_eq 0 0 0 1 0 1 1 2 1 (by norm_num) solveT1_example1 hv1
  rw [h, accSgn_one]
  norm_num [case0Plan, vInteg, pInteg]

/-- Claim C5, counterexample: on the accepted triangular plan for
`p0 = 0, pe = 1, v0 = ve = 0, amax = dmax = 1, vmax = 2`, sampling exactly at
the start time returns acceleration `s·amax = 1`, not `0`: the claim that
`sample(t0) = (p0, v0, 0)` fails in its acceleration component. -/
theorem claim_C5_counterexample :
    calcTrajectory 0 0 0 1 0 1 1 2 = Except.ok ⟨[1, 1], [1, -1], [0, 1], [0, 0.5], 0⟩ ∧
      getPoint 0 0 0 1 0 ⟨[1, 1], [1, -1], [0, 1], [0, 0.5], 0⟩ 0 = (0, 0, 1) ∧
      (1 : ℝ) ≠ 0 := by
  refine ⟨calc_example1, ?_, by norm_num⟩
  simp only [getPoint]
  rw [if_neg (by norm_num : ¬(0 : ℤ) = -1)]
  rw [if_neg (by norm_num : ¬(0 : ℝ) - 0 < 0)]
  rw [if_neg (by simp [sumTake] : ¬sumTake [(1 : ℝ), 1] ([(1 : ℝ), 1].length + 1) ≤ 0 - 0)]
  rw [findPhaseIdx_two, if_pos (by norm_num : (0 : ℝ) - 0 ≤ 1)]
  simp [sumTake, pInteg, vInteg]

/-- Claim C5, amended: for every accepted AccSolver plan, sampling exactly at
`t0` returns position `p0` and velocity `v0`, but the acceleration returned is
the first stored phase acceleration (`s·amax` when `Δp ≠ 0`, provided the first
stored duration is nonnegative) and `0` only for the no-motion sentinel.  For
the JerkSolver, the no-motion sentinel samples to `(p0, v0, 0, 0)`; Case 0
samples at `t0` to `(p0, 0, 0, ±jmax)` (jerk is `±jmax`, not `0`); Cases 1-3
sample at `t0` to the end state `(pe, ve, 0, 0)`, not the initial state. -/
theorem claim_C5_amended :
    (∀ t0 p0 v0 pe ve aa ad vm : ℝ, ∀ pl : AccPlan, 0 < vm →
        calcTrajectory t0 p0 v0 pe ve aa ad vm = Except.ok pl →
        (pl.caseNum = -1 → getPoint t0 p0 v0 pe ve pl t0 = (p0, v0, 0)) ∧
          (pl.caseNum ≠ -1 → 0 ≤ pl.dt.getD 0 0 →
            getPoint t0 p0 v0 pe ve pl t0 = (p0, v0, pl.a.getD 0 0))) ∧
      ∀ t0 p0 v0 pe ve amax vmax jmax : ℝ, ∀ jp : JerkPlan, 0 < jmax →
        jerkCalcTrajectory p0 v0 pe ve amax vmax jmax = Except.ok jp →
        (jp.caseNum = -1 → jerkGetPoint t0 p0 v0 pe ve jmax jp t0 = (p0, v0, 0, 0)) ∧
          (jp.caseNum = 0 → jerkGetPoint t0 p0 v0 pe ve jmax jp t0 =
            (p0, 0, 0, if pe < p0 then -jmax else jmax)) ∧
          (jp.caseNum = 1 ∨ jp.caseNum = 2 ∨ jp.caseNum = 3 →
            jerkGetPoint t0 p0 v0 pe ve jmax jp t0 = (pe, ve, 0, 0)) := by
  constructor
  · intro t0 p0 v0 pe ve aa ad vm pl hvm hok
    rcases calcTrajectory_ok_cases hok with ⟨hdp, hdv, hpl⟩ | ⟨hdp, dt01, hsol, hcase⟩
    · subst hpl
      exact ⟨fun _ => getPoint_sentinel t0 p0 v0 pe ve t0, fun hne _ => absurd rfl hne⟩
    · rcases hcase with ⟨hv1, hpl⟩ | ⟨hv1, hdt12, hpl⟩
      · subst hpl
        refine ⟨fun hc => absurd hc (by norm_num [case0Plan]), fun _ _ => ?_⟩
        rw [getPoint_t0_case0 t0 p0 v0 pe ve _ _ dt01 (solveT1_pos hsol)]
        simp [case0Plan]
      · subst hpl
        refine ⟨fun hc => absurd hc (by norm_num [case1Plan]), fun _ hdt0 => ?_⟩
        have h0 : 0 ≤ (vm * (pe - p0) / |pe - p0| - v0) / (aa * accSgn (pe - p0)) := by
          simpa [case1Plan] using hdt0
        rw [getPoint_t0_case1 t0 p0 v0 pe ve _ _ vm hdp hvm h0 hdt12]
        simp [case1Plan]
  · intro t0 p0 v0 pe ve amax vmax jmax jp hj hok
    rcases jerkCalc_ok_cases hok with ⟨hdp, hpl⟩ | ⟨hdp, hcase⟩
    · subst hpl
      refine ⟨fun _ => jerkGetPoint_t0_sentinel t0 p0 v0 pe ve jmax rfl,
        fun hc => absurd hc (by norm_num), fun hor => ?_⟩
      rcases hor with h | h | h <;> norm_num at h
    · rcases hcase with ⟨hc0, ht1⟩ | hc1 | hc2 | hc3
      · refine ⟨fun hc => ?_, fun _ => ?_, fun hor => ?_⟩
        · rw [hc0] at hc; norm_num at hc
        · have habs : 0 < |pe - p0| := abs_pos.mpr hdp
          have harg : 0 < |pe - p0| / 2 / jmax := div_pos (by linarith) hj
          have ht1pos : 0 < jp.t1 := by
            rw [ht1]
            exact Real.rpow_pos_of_pos harg _
          exact jerkGetPoint_t0_case0 t0 p0 v0 pe ve jmax hc0 ht1pos
        · rcases hor with h | h | h <;> rw [hc0] at h <;> norm_num at h
      · exact ⟨fun hc => by rw [hc1] at hc; norm_num at hc,
          fun hc => by rw [hc1] at hc; norm_num at hc,
          fun _ => jerkGetPoint_t0_late t0 p0 v0 pe ve jmax
            (by rw [hc1]; norm_num) (by rw [hc1]; norm_num)⟩
      · exact ⟨fun hc => by rw [hc2] at hc; norm_num at hc,
          fun hc => by rw [hc2] at hc; norm_num at hc,
          fun _ => jerkGetPoint_t0_late t0 p0 v0 pe ve jmax
            (by rw [hc2]; norm_num) (by rw [hc2]; norm_num)⟩
      · exact ⟨fun hc => by rw [hc3] at hc; norm_num at hc,
          fun hc => by rw [hc3] at hc; norm_num at hc,
          fun _ => jerkGetPoint_t0_late t0 p0 v0 pe ve jmax
            (by rw [hc3]; norm_num) (by rw [hc3]; norm_num)⟩

/-- Witness for the amended claim C5 on the concrete accepted triangular plan
for `p0 = 0, pe = 1, v0 = ve = 0, amax = dmax = 1, vmax = 2`. -/
theorem claim_C5_amended_witness :
    ((0 : ℝ) < 2) ∧
      calcTrajectory 0 0 0 1 0 1 1 2 = Except.ok ⟨[1, 1], [1, -1], [0, 1], [0, 0.5], 0⟩ ∧
      (((⟨[1, 1], [1, -1], [0, 1], [0, 0.5], 0⟩ : AccPlan).caseNum = -1 →
          getPoint 0 0 0 1 0 ⟨[1, 1], [1, -1], [0, 1], [0, 0.5], 0⟩ 0 = (0, 0, 0)) ∧
        ((⟨[1, 1], [1, -1], [0, 1], [0, 0.5], 0⟩ : AccPlan).caseNum ≠ -1 →
          0 ≤ (⟨[1, 1], [1, -1], [0, 1], [0, 0.5], 0⟩ : AccPlan).dt.getD 0 0 →
          getPoint 0 0 0 1 0 ⟨[1, 1], [1, -1], [0, 1], [0, 0.5], 0⟩ 0 =
            (0, 0, (⟨[1, 1], [1, -1], [0, 1], [0, 0.5], 0⟩ : AccPlan).a.getD 0 0))) :=
  ⟨by norm_num, calc_example1,
    claim_C5_amended.1 0 0 0 1 0 1 1 2 ⟨[1, 1], [1, -1], [0, 1], [0, 0.5], 0⟩
      (by norm_num) calc_example1⟩

lemma case0Plan_dt (p0 v0 acc dec dt01 ve : ℝ) :
    (case0Plan p0 v0 acc dec dt01 ve).dt = [dt01, |(vInteg v0 acc dt01 - ve) / dec|] := rfl

lemma case0Plan_a (p0 v0 acc dec dt01 ve : ℝ) :
    (case0Plan p0 v0 acc dec dt01 ve).a = [acc, -dec] := rfl

lemma case0Plan_v (p0 v0 acc dec dt01 ve : ℝ) :
    (case0Plan p0 v0 acc dec dt01 ve).v = [v0, vInteg v0 acc dt01] := rfl

lemma case0Plan_p (p0 v0 acc dec dt01 ve : ℝ) :
    (case0Plan p0 v0 acc dec dt01 ve).p = [p0, pInteg p0 v0 acc dt01] := rfl

lemma case1Plan_dt (p0 v0 pe ve acc dec vmax : ℝ) :
    (case1Plan p0 v0 pe ve acc dec vmax).dt =
      [(vmax * (pe - p0) / |pe - p0| - v0) / acc,
        case1dt12 p0 v0 pe ve acc dec vmax,
        |(vmax * (pe - p0) / |pe - p0| - ve) / dec|] := rfl

lemma case1Plan_a (p0 v0 pe ve acc dec vmax : ℝ) :
    (case1Plan p0 v0 pe ve acc dec vmax).a = [acc, 0, -dec] := rfl

lemma case1Plan_v (p0 v0 pe ve acc dec vmax : ℝ) :
    (case1Plan p0 v0 pe ve acc dec vmax).v =
      [v0, vmax * (pe - p0) / |pe - p0|, vmax * (pe - p0) / |pe - p0|] := rfl

lemma sumTake_two_all (d0 d1 : ℝ) :
    sumTake [d0, d1] ([d0, d1].length + 1) = d0 + d1 := by
  simp [sumTake]

lemma sumTake_three_all (d0 d1 d2 : ℝ) :
    sumTake [d0, d1, d2] ([d0, d1, d2].length + 1) = d0 + (d1 + d2) := by
  simp [sumTake]

/-- Claim C9: every successfully planned profile with `Δp ≠ 0` stores parallel
vectors `_dt`, `_a`, `_v`, `_p` of equal length (2 for the triangular case 0,
3 for the trapezoidal case 1), and for `0 ≤ τ < sum(_dt)` the cumulative
duration search always finds an index `i < _dt.size()` before the vectors are
indexed. -/
theorem claim_C9 (t0 p0 v0 pe ve aa ad vm : ℝ) (pl : AccPlan)
    (hok : calcTrajectory t0 p0 v0 pe ve aa ad vm = Except.ok pl)
    (hne : pl.caseNum ≠ -1) :
    (pl.dt.length = pl.a.length ∧ pl.dt.length = pl.v.length ∧
        pl.dt.length = pl.p.length ∧
        ((pl.caseNum = 0 ∧ pl.dt.length = 2) ∨ (pl.caseNum = 1 ∧ pl.dt.length = 3))) ∧
      ∀ tau : ℝ, 0 ≤ tau → tau < sumTake pl.dt (pl.dt.length + 1) →
        ∃ i, findPhaseIdx pl.dt tau = some i ∧ i < pl.dt.length := by
  rcases calcTrajectory_ok_cases hok with ⟨_, _, hpl⟩ | ⟨hdp, dt01, hsol, hcase⟩
  · rw [hpl] at hne
    exact absurd rfl hne
  rcases hcase with ⟨_, hpl⟩ | ⟨_, _, hpl⟩
  · subst hpl
    refine ⟨⟨rfl, rfl, rfl, Or.inl ⟨rfl, rfl⟩⟩, ?_⟩
    intro tau h0 hlt
    simp only [case0Plan, sumTake, List.length_cons, List.length_nil, List.take,
      List.sum_cons, List.sum_nil] at hlt ⊢
    rw [findPhaseIdx_two]
    by_cases h1 : tau ≤ dt01
    · exact ⟨0, by rw [if_pos h1], by norm_num⟩
    · exact ⟨1, by rw [if_neg h1, if_pos (by linarith)], by norm_num⟩
  · subst hpl
    refine ⟨⟨rfl, rfl, rfl, Or.inr ⟨rfl, rfl⟩⟩, ?_⟩
    intro tau h0 hlt
    rw [case1Plan_dt] at hlt ⊢
    rw [sumTake_three_all] at hlt
    set d0 := (vm * (pe - p0) / |pe - p0| - v0) / (aa * accSgn (pe - p0)) with hd0
    set d1 := case1dt12 p0 v0 pe ve (aa * accSgn (pe - p0)) (ad * accSgn (pe - p0)) vm with hd1
    set d2 := |(vm * (pe - p0) / |pe - p0| - ve) / (ad * accSgn (pe - p0))| with hd2
    rw [show ([d0, d1, d2] : List ℝ).length = 3 from rfl]
    rw [findPhaseIdx_three]
    by_cases h1 : tau ≤ d0
    · exact ⟨0, by rw [if_pos h1], by norm_num⟩
    by_cases h2 : tau ≤ d0 + d1
    · exact ⟨1, by rw [if_neg h1, if_pos h2], by norm_num⟩
    · exact ⟨2, by rw [if_neg h1, if_neg h2, if_pos (by linarith)], by norm_num⟩

/-- Witness for claim C9 on the concrete accepted triangular plan for
`p0 = 0, pe = 1, v0 = ve = 0, amax = dmax = 1, vmax = 2`, searched at `τ = 1/2`. -/
theorem claim_C9_witness :
    ((⟨[1, 1], [1, -1], [0, 1], [0, 0.5], 0⟩ : AccPlan).caseNum ≠ -1) ∧
      (((⟨[1, 1], [1, -1], [0, 1], [0, 0.5], 0⟩ : AccPlan).dt.length =
          (⟨[1, 1], [1, -1], [0, 1], [0, 0.5], 0⟩ : AccPlan).a.length ∧
        (⟨[1, 1], [1, -1], [0, 1], [0, 0.5], 0⟩ : AccPlan).dt.length =
          (⟨[1, 1], [1, -1], [0, 1], [0, 0.5], 0⟩ : AccPlan).v.length ∧
        (⟨[1, 1], [1, -1], [0, 1], [0, 0.5], 0⟩ : AccPlan).dt.length =
          (⟨[1, 1], [1, -1], [0, 1], [0, 0.5], 0⟩ : AccPlan).p.length ∧
        (((⟨[1, 1], [1, -1], [0, 1], [0, 0.5], 0⟩ : AccPlan).caseNum = 0 ∧
            (⟨[1, 1], [1, -1], [0, 1], [0, 0.5], 0⟩ : AccPlan).dt.length = 2) ∨
          ((⟨[1, 1], [1, -1], [0, 1], [0, 0.5], 0⟩ : AccPlan).caseNum = 1 ∧
            (⟨[1, 1], [1, -1], [0, 1], [0, 0.5], 0⟩ : AccPlan).dt.length = 3))) ∧
        ∀ tau : ℝ, 0 ≤ tau →
          tau < sumTake (⟨[1, 1], [1, -1], [0, 1], [0, 0.5], 0⟩ : AccPlan).dt
            ((⟨[1, 1], [1, -1], [0, 1], [0, 0.5], 0⟩ : AccPlan).dt.length + 1) →
          ∃ i, findPhaseIdx (⟨[1, 1], [1, -1], [0, 1], [0, 0.5], 0⟩ : AccPlan).dt tau = some i ∧
            i < (⟨[1, 1], [1, -1], [0, 1], [0, 0.5], 0⟩ : AccPlan).dt.length) :=
  ⟨by norm_num, claim_C9 0 0 0 1 0 1 1 2 ⟨[1, 1], [1, -1], [0, 1], [0, 0.5], 0⟩
    calc_example1 (by norm_num)⟩

lemma sqrt_three_sq : Real.sqrt 3 ^ 2 = 3 := Real.sq_sqrt (by norm_num)

lemma sqrt_three_pos : 0 < Real.sqrt 3 := Real.sqrt_pos.mpr (by norm_num)

lemma sqrt_three_lt_two : Real.sqrt 3 < 2 := by
  nlinarith [sqrt_three_sq, sqrt_three_pos]

lemma sqrt_twelve : Real.sqrt 12 = 2 * Real.sqrt 3 := by
  rw [show (12 : ℝ) = 2 ^ 2 * 3 by norm_num, Real.sqrt_mul (by positivity) 3,
    Real.sqrt_sq (by norm_num : (0 : ℝ) ≤ 2)]

lemma solveT1_bug_input :
    solveT1 0 2 ((1 : ℝ) - 0) (1 * accSgn ((1 : ℝ) - 0)) (1 * accSgn ((1 : ℝ) - 0))
      (accSgn ((1 : ℝ) - 0)) = Except.ok (Real.sqrt 3) := by
  rw [accSgn_one]
  have hD : quadDisc 0 2 ((1 : ℝ) - 0) (1 * 1) (1 * 1) = 12 := by
    rw [quadDisc, quadA, quadB, quadC]
    norm_num
  have hcr : chooseRoot (quadA ((1 : ℝ) * 1) (1 * 1)) (quadB 0 ((1 : ℝ) * 1) (1 * 1))
      (quadDisc 0 2 ((1 : ℝ) - 0) (1 * 1) (1 * 1)) = some (Real.sqrt 3) := by
    rw [show quadA ((1 : ℝ) * 1) (1 * 1) = 1 from by rw [quadA]; norm_num,
      show quadB 0 ((1 : ℝ) * 1) (1 * 1) = 0 from by rw [quadB]; norm_num, hD]
    simp only [chooseRoot, sqrt_twelve]
    rw [if_neg, if_pos]
    · rw [show (-0 + 2 * Real.sqrt 3) / (2 * 1) = Real.sqrt 3 from by ring]
    · rw [show (-0 + 2 * Real.sqrt 3) / (2 * 1) = Real.sqrt 3 from by ring]
      exact sqrt_three_pos
    · intro hcon
      rw [show (-0 - 2 * Real.sqrt 3) / (2 * 1) = -Real.sqrt 3 from by ring] at hcon
      linarith [hcon.2, sqrt_three_pos]
  simp only [solveT1]
  rw [if_pos (by rw [hD]; norm_num), hcr]

/-- Claim C1, evaluation at the failing input: for
`p0 = 0, v0 = 0, pe = 1, ve = 2, amax = dmax = 1, vmax = 10` planning succeeds
with the triangular table `dt = [√3, 2−√3]`, but integrating the stored final
phase over its full duration yields velocity `2√3 − 2 ≠ ve = 2` and position
`4√3 − 5 ≠ pe = 1`: the stored table is not kinematically consistent. -/
theorem claim_C1_code_bug :
    calcTrajectory 0 0 0 1 2 1 1 10 = Except.ok (case0Plan 0 0 1 1 (Real.sqrt 3) 2) ∧
      vInteg ((case0Plan 0 0 1 1 (Real.sqrt 3) 2).v.getD 1 0)
          ((case0Plan 0 0 1 1 (Real.sqrt 3) 2).a.getD 1 0)
          ((case0Plan 0 0 1 1 (Real.sqrt 3) 2).dt.getD 1 0) ≠ 2 ∧
      pInteg ((case0Plan 0 0 1 1 (Real.sqrt 3) 2).p.getD 1 0)
          ((case0Plan 0 0 1 1 (Real.sqrt 3) 2).v.getD 1 0)
          ((case0Plan 0 0 1 1 (Real.sqrt 3) 2).a.getD 1 0)
          ((case0Plan 0 0 1 1 (Real.sqrt 3) 2).dt.getD 1 0) ≠ 1 := by
  have habs : |(vInteg 0 1 (Real.sqrt 3) - 2) / 1| = 2 - Real.sqrt 3 := by
    rw [vInteg, show (0 + 1 * Real.sqrt 3 - 2) / 1 = Real.sqrt 3 - 2 from by ring,
      abs_of_neg (by linarith [sqrt_three_lt_two])]
    ring
  refine ⟨?_, ?_, ?_⟩
  · have hv1 : |vInteg 0 (1 * accSgn ((1 : ℝ) - 0)) (Real.sqrt 3)| < 10 := by
      rw [accSgn_one, vInteg,
        show (0 : ℝ) + 1 * 1 * Real.sqrt 3 = Real.sqrt 3 from by ring,
        abs_of_pos sqrt_three_pos]
      linarith [sqrt_three_lt_two]
    have h := calcTrajectory_case0_eq 0 0 0 1 2 1 1 10 (Real.sqrt 3) (by norm_num)
      solveT1_bug_input hv1
    rw [h, accSgn_one]
    norm_num [case0Plan, vInteg, pInteg]
  · simp only [case0Plan_dt, case0Plan_a, case0Plan_v, List.getD_cons_succ,
      List.getD_cons_zero]
    rw [habs]
    simp only [vInteg]
    intro heq
    nlinarith [sqrt_three_sq]
  · simp only [case0Plan_dt, case0Plan_a, case0Plan_v, case0Plan_p, List.getD_cons_succ,
      List.getD_cons_zero]
    rw [habs]
    simp only [vInteg, pInteg]
    intro heq
    nlinarith [sqrt_three_sq, sqrt_three_pos, sqrt_three_lt_two]

lemma case0Plan_caseNum (p0 v0 acc dec dt01 ve : ℝ) :
    (case0Plan p0 v0 acc dec dt01 ve).caseNum = 0 := rfl

lemma case1Plan_caseNum (p0 v0 pe ve acc dec vmax : ℝ) :
    (case1Plan p0 v0 pe ve acc dec vmax).caseNum = 1 := rfl

lemma case1Plan_p (p0 v0 pe ve acc dec vmax : ℝ) :
    (case1Plan p0 v0 pe ve acc dec vmax).p =
      [p0, pInteg p0 v0 acc ((vmax * (pe - p0) / |pe - p0| - v0) / acc),
        pe - pInteg 0 (vmax * (pe - p0) / |pe - p0|) (-dec)
          |(vmax * (pe - p0) / |pe - p0| - ve) / dec|] := rfl

lemma accSgn_hundred : accSgn ((100 : ℝ) - 0) = 1 := by
  rw [accSgn, abs_of_pos (by norm_num : (0 : ℝ) < 100 - 0)]
  norm_num

lemma sqrt_six_sq : Real.sqrt 6 ^ 2 = 6 := Real.sq_sqrt (by norm_num)

lemma sqrt_six_gt_two : 2 < Real.sqrt 6 := by
  nlinarith [sqrt_six_sq, Real.sqrt_nonneg 6]

lemma sqrt_six_hundred : Real.sqrt 600 = 10 * Real.sqrt 6 := by
  rw [show (600 : ℝ) = 10 ^ 2 * 6 by norm_num, Real.sqrt_mul (by positivity) 6,
    Real.sqrt_sq (by norm_num : (0 : ℝ) ≤ 10)]

lemma solveT1_overspeed :
    solveT1 10 0 ((100 : ℝ) - 0) (1 * accSgn ((100 : ℝ) - 0)) (1 * accSgn ((100 : ℝ) - 0))
      (accSgn ((100 : ℝ) - 0)) = Except.ok (5 * Real.sqrt 6 - 10) := by
  rw [accSgn_hundred]
  have hD : quadDisc 10 0 ((100 : ℝ) - 0) (1 * 1) (1 * 1) = 600 := by
    rw [quadDisc, quadA, quadB, quadC]
    norm_num
  have hcr : chooseRoot (quadA ((1 : ℝ) * 1) (1 * 1)) (quadB 10 ((1 : ℝ) * 1) (1 * 1))
      (quadDisc 10 0 ((100 : ℝ) - 0) (1 * 1) (1 * 1)) = some (5 * Real.sqrt 6 - 10) := by
    rw [show quadA ((1 : ℝ) * 1) (1 * 1) = 1 from by rw [quadA]; norm_num,
      show quadB 10 ((1 : ℝ) * 1) (1 * 1) = 20 from by rw [quadB]; norm_num, hD]
    simp only [chooseRoot, sqrt_six_hundred]
    rw [if_neg, if_pos]
    · rw [show (-20 + 10 * Real.sqrt 6) / (2 * 1) = 5 * Real.sqrt 6 - 10 from by ring]
    · rw [show (-20 + 10 * Real.sqrt 6) / (2 * 1) = 5 * Real.sqrt 6 - 10 from by ring]
      nlinarith [sqrt_six_gt_two]
    · intro hcon
      rw [show (-20 - 10 * Real.sqrt 6) / (2 * 1) = -(10 + 5 * Real.sqrt 6) from by ring]
        at hcon
      nlinarith [hcon.2, Real.sqrt_nonneg 6]
  simp only [solveT1]
  rw [if_pos (by rw [hD]; norm_num), hcr]

lemma calc_overspeed :
    calcTrajectory 0 0 10 100 0 1 1 1 = Except.ok (case1Plan 0 10 100 0 1 1 1) := by
  have hv1 : ¬|vInteg 10 (1 * accSgn ((100 : ℝ) - 0)) (5 * Real.sqrt 6 - 10)| < 1 := by
    rw [accSgn_hundred, vInteg,
      show (10 : ℝ) + 1 * 1 * (5 * Real.sqrt 6 - 10) = 5 * Real.sqrt 6 from by ring,
      abs_of_pos (by nlinarith [sqrt_six_gt_two] : (0 : ℝ) < 5 * Real.sqrt 6)]
    push_neg
    nlinarith [sqrt_six_gt_two]
  have hdt12 : ¬case1dt12 0 10 100 0 (1 * accSgn ((100 : ℝ) - 0))
      (1 * accSgn ((100 : ℝ) - 0)) 1 < 0 := by
    rw [accSgn_hundred]
    rw [case1dt12, abs_of_pos (by norm_num : (0 : ℝ) < 100 - 0)]
    rw [show (1 : ℝ) * (100 - 0) / (100 - 0) = 1 from by norm_num]
    rw [show |((1 : ℝ) - 0) / (1 * 1)| = 1 from by rw [abs_of_pos] <;> norm_num]
    rw [pInteg, pInteg]
    norm_num
  have h := calcTrajectory_case1_eq 0 0 10 100 0 1 1 1 (5 * Real.sqrt 6 - 10)
    (by norm_num) solveT1_overspeed hv1 hdt12
  rw [h, accSgn_hundred, show (1 : ℝ) * 1 = 1 from by norm_num]

/-- Claim C8, counterexample: with `v0 = 10`, `vmax = 1`
(`p0 = 0, pe = 100, ve = 0, amax = dmax = 1`) the planner accepts a
trapezoidal plan, yet sampling at `t = t0 - 1` returns the held initial
velocity `10`, violating `|v(t)| ≤ vmax + 10⁻⁹ = 1 + 10⁻⁹` at a real sampling
time. -/
theorem claim_C8_counterexample :
    calcTrajectory 0 0 10 100 0 1 1 1 = Except.ok (case1Plan 0 10 100 0 1 1 1) ∧
      getPoint 0 0 10 100 0 (case1Plan 0 10 100 0 1 1 1) (-1) = (0, 10, 0) ∧
      ¬|(10 : ℝ)| ≤ 1 + 1e-9 := by
  refine ⟨calc_overspeed, ?_, ?_⟩
  · simp only [getPoint]
    rw [if_neg (by rw [case1Plan_caseNum]; norm_num),
      if_pos (by norm_num : (-1 : ℝ) - 0 < 0)]
  · rw [abs_of_pos (by norm_num : (0 : ℝ) < 10)]
    norm_num

lemma linear_abs_bound {v a d t M : ℝ} (ht0 : 0 ≤ t) (htd : t ≤ d)
    (h1 : |v| ≤ M) (h2 : |v + a * d| ≤ M) : |v + a * t| ≤ M := by
  rw [abs_le] at h1 h2 ⊢
  rcases le_or_lt 0 a with ha | ha
  · constructor
    · nlinarith [h1.1, mul_nonneg ha ht0]
    · nlinarith [h2.2, mul_nonneg ha (sub_nonneg.mpr htd)]
  · constructor
    · nlinarith [h2.1, mul_nonneg (neg_nonneg.mpr ha.le) (sub_nonneg.mpr htd)]
    · nlinarith [h1.2, mul_nonneg (neg_nonneg.mpr ha.le) ht0]

/-- Claim C8, amended: the velocity bound `|v(t)| ≤ vmax` holds at every real
sampling time for accepted plans whose boundary velocities already respect the
limit (`|v0| ≤ vmax`, `|ve| ≤ vmax`) and whose stored final phase actually
lands on `ve` (which the planner does not enforce; see C1).  Without these
hypotheses the bound fails (see the counterexample). -/
theorem claim_C8_amended (t0 p0 v0 pe ve aa ad vm : ℝ) (pl : AccPlan)
    (ha : 0 < aa) (hvm : 0 < vm) (hv0 : |v0| ≤ vm) (hve : |ve| ≤ vm)
    (hok : calcTrajectory t0 p0 v0 pe ve aa ad vm = Except.ok pl)
    (hland : vInteg (pl.v.getD (pl.dt.length - 1) 0) (pl.a.getD (pl.dt.length - 1) 0)
        (pl.dt.getD (pl.dt.length - 1) 0) = ve) :
    ∀ t : ℝ, |(getPoint t0 p0 v0 pe ve pl t).2.1| ≤ vm := by
  intro t
  rcases calcTrajectory_ok_cases hok with ⟨hdp, hdv, hpl⟩ | ⟨hdp, dt01, hsol, hcase⟩
  · subst hpl
    rw [getPoint_sentinel]
    exact hv0
  have hsgnabs : |accSgn (pe - p0)| = 1 := by
    rcases accSgn_cases hdp with h | h <;> rw [h] <;> norm_num
  have haccne : aa * accSgn (pe - p0) ≠ 0 :=
    mul_ne_zero (ne_of_gt ha) (accSgn_ne_zero hdp)
  rcases hcase with ⟨hv1, hpl⟩ | ⟨hv1, hdt12, hpl⟩
  · -- triangular case 0
    subst hpl
    set acc := aa * accSgn (pe - p0) with hacc
    set dec := ad * accSgn (pe - p0) with hdec
    simp only [case0Plan_dt, case0Plan_v, case0Plan_a, List.length_cons, List.length_nil,
      List.getD_cons_succ, List.getD_cons_zero] at hland
    have hdt01 : 0 < dt01 := solveT1_pos hsol
    have hv1le : |vInteg v0 acc dt01| ≤ vm := le_of_lt hv1
    simp only [getPoint, case0Plan_dt, case0Plan_a, case0Plan_v, case0Plan_p]
    rw [if_neg (by rw [case0Plan_caseNum]; norm_num)]
    by_cases hneg : t - t0 < 0
    · rw [if_pos hneg]
      exact hv0
    rw [if_neg hneg, sumTake_two_all]
    by_cases hafter : dt01 + |(vInteg v0 acc dt01 - ve) / dec| ≤ t - t0
    · rw [if_pos hafter]
      exact hve
    rw [if_neg hafter, findPhaseIdx_two]
    by_cases h1 : t - t0 ≤ dt01
    · rw [if_pos h1]
      show |vInteg v0 acc (t - t0 - sumTake [dt01, |(vInteg v0 acc dt01 - ve) / dec|] 0)| ≤ vm
      rw [show sumTake [dt01, |(vInteg v0 acc dt01 - ve) / dec|] 0 = 0 from rfl, sub_zero,
        vInteg]
      exact linear_abs_bound (not_lt.mp hneg) h1 hv0 (by rw [← vInteg]; exact hv1le)
    · by_cases h2 : t - t0 ≤ dt01 + |(vInteg v0 acc dt01 - ve) / dec|
      · rw [if_neg h1, if_pos h2]
        show |vInteg (vInteg v0 acc dt01) (-dec)
          (t - t0 - sumTake [dt01, |(vInteg v0 acc dt01 - ve) / dec|] 1)| ≤ vm
        rw [show sumTake [dt01, |(vInteg v0 acc dt01 - ve) / dec|] 1 = dt01 + 0 from by
          simp [sumTake]]
        rw [vInteg]
        refine linear_abs_bound (by push_neg at h1; linarith) (by linarith) hv1le ?_
        rw [← vInteg, hland]
        exact hve
      · exact absurd (le_of_lt (not_le.mp hafter)) h2
  · -- trapezoidal case 1
    subst hpl
    set acc := aa * accSgn (pe - p0) with hacc
    set dec := ad * accSgn (pe - p0) with hdec
    set w1 := vm * (pe - p0) / |pe - p0| with hw1def
    have hw1 : w1 = vm * accSgn (pe - p0) := by
      rw [hw1def, accSgn, mul_div_assoc]
    have habsw1 : |w1| = vm := by
      rw [hw1, abs_mul, hsgnabs, abs_of_pos hvm, mul_one]
    have hw1le : |w1| ≤ vm := le_of_eq habsw1
    have hd0 : 0 ≤ (w1 - v0) / acc := by
      have hnum : w1 - v0 = accSgn (pe - p0) * (vm - accSgn (pe - p0) * v0) := by
        rcases accSgn_cases hdp with h | h <;> rw [hw1, h] <;> ring
      have hden : acc = accSgn (pe - p0) * aa := by rw [hacc]; ring
      rw [hnum, hden, mul_div_mul_left _ _ (accSgn_ne_zero hdp)]
      apply div_nonneg _ (le_of_lt ha)
      have : accSgn (pe - p0) * v0 ≤ |accSgn (pe - p0) * v0| := le_abs_self _
      rw [abs_mul, hsgnabs, one_mul] at this
      linarith [abs_le.mp hv0]
    have hend0 : vInteg v0 acc ((w1 - v0) / acc) = w1 := by
      rw [vInteg, mul_div_cancel₀ _ haccne]
      ring
    have h12nn : 0 ≤ case1dt12 p0 v0 pe ve acc dec vm := not_lt.mp hdt12
    simp only [case1Plan_dt, case1Plan_v, case1Plan_a, List.length_cons, List.length_nil,
      List.getD_cons_succ, List.getD_cons_zero] at hland
    rw [← hw1def] at hland
    simp only [getPoint, case1Plan_dt, case1Plan_a, case1Plan_v, case1Plan_p, ← hw1def]
    rw [if_neg (by rw [case1Plan_caseNum]; norm_num)]
    by_cases hneg : t - t0 < 0
    · rw [if_pos hneg]
      exact hv0
    rw [if_neg hneg, sumTake_three_all]
    by_cases hafter : (w1 - v0) / acc + (case1dt12 p0 v0 pe ve acc dec vm +
        |(w1 - ve) / dec|) ≤ t - t0
    · rw [if_pos hafter]
      exact hve
    rw [if_neg hafter, findPhaseIdx_three]
    by_cases h1 : t - t0 ≤ (w1 - v0) / acc
    · rw [if_pos h1]
      show |vInteg v0 acc (t - t0 - sumTake [(w1 - v0) / acc,
        case1dt12 p0 v0 pe ve acc dec vm, |(w1 - ve) / dec|] 0)| ≤ vm
      rw [show sumTake [(w1 - v0) / acc, case1dt12 p0 v0 pe ve acc dec vm,
        |(w1 - ve) / dec|] 0 = 0 from rfl, sub_zero, vInteg]
      refine linear_abs_bound (not_lt.mp hneg) h1 hv0 ?_
      rw [← vInteg, hend0]
      exact hw1le
    by_cases h2 : t - t0 ≤ (w1 - v0) / acc + case1dt12 p0 v0 pe ve acc dec vm
    · rw [if_neg h1, if_pos h2]
      show |vInteg w1 0 (t - t0 - sumTake [(w1 - v0) / acc,
        case1dt12 p0 v0 pe ve acc dec vm, |(w1 - ve) / dec|] 1)| ≤ vm
      rw [vInteg, zero_mul, add_zero]
      exact hw1le
    by_cases h3 : t - t0 ≤ (w1 - v0) / acc + (case1dt12 p0 v0 pe ve acc dec vm +
        |(w1 - ve) / dec|)
    · rw [if_neg h1, if_neg h2, if_pos h3]
      show |vInteg w1 (-dec) (t - t0 - sumTake [(w1 - v0) / acc,
        case1dt12 p0 v0 pe ve acc dec vm, |(w1 - ve) / dec|] 2)| ≤ vm
      rw [show sumTake [(w1 - v0) / acc, case1dt12 p0 v0 pe ve acc dec vm,
        |(w1 - ve) / dec|] 2 = (w1 - v0) / acc + (case1dt12 p0 v0 pe ve acc dec vm + 0)
        from by simp [sumTake], vInteg]
      refine linear_abs_bound (d := |(w1 - ve) / dec|)
        (by push_neg at h2; linarith only [h2]) (by linarith only [h3]) hw1le ?_
      rw [← vInteg, hland]
      exact hve
    · exact absurd (le_of_lt (not_le.mp hafter)) h3

/-- Witness for the amended claim C8 on the concrete accepted triangular plan
for `p0 = 0, pe = 1, v0 = ve = 0, amax = dmax = 1, vmax = 2`, sampled at `t = 0`. -/
theorem claim_C8_amended_witness :
    ((0 : ℝ) < 1) ∧ ((0 : ℝ) < 2) ∧ (|(0 : ℝ)| ≤ 2) ∧
      calcTrajectory 0 0 0 1 0 1 1 2 = Except.ok ⟨[1, 1], [1, -1], [0, 1], [0, 0.5], 0⟩ ∧
      vInteg ((⟨[1, 1], [1, -1], [0, 1], [0, 0.5], 0⟩ : AccPlan).v.getD
          ((⟨[1, 1], [1, -1], [0, 1], [0, 0.5], 0⟩ : AccPlan).dt.length - 1) 0)
        ((⟨[1, 1], [1, -1], [0, 1], [0, 0.5], 0⟩ : AccPlan).a.getD
          ((⟨[1, 1], [1, -1], [0, 1], [0, 0.5], 0⟩ : AccPlan).dt.length - 1) 0)
        ((⟨[1, 1], [1, -1], [0, 1], [0, 0.5], 0⟩ : AccPlan).dt.getD
          ((⟨[1, 1], [1, -1], [0, 1], [0, 0.5], 0⟩ : AccPlan).dt.length - 1) 0) = 0 ∧
      |(getPoint 0 0 0 1 0 ⟨[1, 1], [1, -1], [0, 1], [0, 0.5], 0⟩ 0).2.1| ≤ 2 :=
  ⟨by norm_num, by norm_num, by norm_num, calc_example1, by norm_num [vInteg],
    claim_C8_amended 0 0 0 1 0 1 1 2 ⟨[1, 1], [1, -1], [0, 1], [0, 0.5], 0⟩
      (by norm_num) (by norm_num) (by norm_num) (by norm_num) calc_example1
      (by norm_num [vInteg]) 0⟩

end TwoPointInterp
